import Mathlib

/-!
# Verification of the BettaFish orchestration / forum pipeline

Shallow embedding of the core routines of the BettaFish repository
(`ForumEngine/monitor.py`, `ReportEngine/agent.py`, `app.py`,
`utils/retry_helper.py`, `InsightEngine/agent.py`,
`MediaEngine/nodes/summary_node.py`) together with proofs of the
behavioural claims about them.

Strings are modelled as Lean `String` / `List Char`; the Python regular
expressions used by the monitor are emulated by explicit character-level
matchers that follow the backtracking behaviour of `re` on the concrete
patterns appearing in the source.  Python `json.loads` / `json.dumps` are
modelled by an executable JSON parser and serializer over an explicit
JSON value type.  Recursive descent uses an explicit fuel argument always
instantiated with (input length + 1), which strictly exceeds the possible
nesting depth, so the fuel-exhaustion branch is unreachable for any call
made by the embedded code.
-/

namespace BettaFish

/-! ## Character and string utilities -/

/-- Python's `\s` (and `str.isspace`) restricted to the ASCII whitespace
characters that can occur in the log lines: space, tab, newline, carriage
return, vertical tab, form feed. -/
def isPySpace (c : Char) : Bool :=
  c = ' ' || c = '\t' || c = '\n' || c = '\r' || c = '\x0b' || c = '\x0c'

/-- Python `str.strip()` (left part). -/
def lstripChars (cs : List Char) : List Char := cs.dropWhile isPySpace

/-- Python `str.strip()` (right part). -/
def rstripChars (cs : List Char) : List Char := (cs.reverse.dropWhile isPySpace).reverse

/-- Python `str.strip()`. -/
def stripChars (cs : List Char) : List Char := rstripChars (lstripChars cs)

/-- Python `line.strip()` on a `String`. -/
def pyStrip (s : String) : String := String.mk (stripChars s.data)

/-- Python `sub in hay` (substring containment). -/
def listContainsSub (hay sub : List Char) : Bool :=
  match hay with
  | [] => sub.isEmpty
  | c :: t => sub.isPrefixOf (c :: t) || listContainsSub t sub

/-- Python `sub in hay` on `String`s. -/
def strContains (hay sub : String) : Bool := listContainsSub hay.data sub.data

/-- Python `hay.endswith sub`. -/
def listEndsWith (hay sub : List Char) : Bool := sub.reverse.isPrefixOf hay.reverse

/-- Python `hay.find sub`: index of the first occurrence, `none` when absent. -/
def findSub (hay sub : List Char) : Option Nat :=
  match hay with
  | [] => if sub.isEmpty then some 0 else none
  | c :: t =>
    if sub.isPrefixOf (c :: t) then some 0
    else (findSub t sub).map (· + 1)

/-- Python `str.count(c)` for a single character. -/
def countChar (cs : List Char) (c : Char) : Nat := (cs.filter (· = c)).length

/-! ## Emulation of the `re` patterns used by `ForumEngine/monitor.py`

Each matcher takes the character list at a candidate match position and
returns the remainder after the match (`none` when the pattern does not
match there).  Scanning for `re.search` / `re.sub` tries each position
from the left, exactly like the `re` engine. -/

/-- Match `\[\d{2}:\d{2}:\d{2}\]` at the current position. -/
def matchOldTsAt : List Char → Option (List Char)
  | '[' :: d1 :: d2 :: ':' :: d3 :: d4 :: ':' :: d5 :: d6 :: ']' :: rest =>
    if d1.isDigit && d2.isDigit && d3.isDigit && d4.isDigit && d5.isDigit && d6.isDigit then
      some rest
    else none
  | _ => none

/-- Match `\d{n}` at the current position. -/
def matchNDigits : Nat → List Char → Option (List Char)
  | 0, cs => some cs
  | _ + 1, [] => none
  | n + 1, c :: t => if c.isDigit then matchNDigits n t else none

/-- Match a literal character at the current position. -/
def matchChar (ch : Char) : List Char → Option (List Char)
  | [] => none
  | c :: t => if c = ch then some t else none

/-- Match `\s+` (greedy; the following pattern element in every use site
cannot match whitespace, so maximal munch is faithful). -/
def matchSpaces1 : List Char → Option (List Char)
  | [] => none
  | c :: t => if isPySpace c then some (t.dropWhile isPySpace) else none

/-- Match `[A-Z]+` (greedy, same justification). -/
def matchUpper1 : List Char → Option (List Char)
  | [] => none
  | c :: t => if c.isUpper then some (t.dropWhile Char.isUpper) else none

/-- Match the timestamp part `\d{4}-\d{2}-\d{2}\s+\d{2}:\d{2}:\d{2}\.\d{3}`
at the current position. -/
def matchNewTsAt (cs : List Char) : Option (List Char) :=
  (matchNDigits 4 cs).bind fun r =>
  (matchChar '-' r).bind fun r =>
  (matchNDigits 2 r).bind fun r =>
  (matchChar '-' r).bind fun r =>
  (matchNDigits 2 r).bind fun r =>
  (matchSpaces1 r).bind fun r =>
  (matchNDigits 2 r).bind fun r =>
  (matchChar ':' r).bind fun r =>
  (matchNDigits 2 r).bind fun r =>
  (matchChar ':' r).bind fun r =>
  (matchNDigits 2 r).bind fun r =>
  (matchChar '.' r).bind fun r =>
  matchNDigits 3 r

/-- Match the loguru prefix up to (and including) the second `|` and the
following `\s*`, i.e. `<timestamp>\s*\|\s*[A-Z]+\s*\|\s*`. -/
def matchTsLevelLoggerAt (cs : List Char) : Option (List Char) :=
  (matchNewTsAt cs).bind fun r =>
  (matchChar '|' (r.dropWhile isPySpace)).bind fun r =>
  (matchUpper1 (r.dropWhile isPySpace)).bind fun r =>
  (matchChar '|' (r.dropWhile isPySpace)).bind fun r =>
  some (r.dropWhile isPySpace)

/-- Match `[^|]+?\s*-\s*` at the current position (the non-greedy logger
part of the loguru prefix regex): consume characters `≠ '|'` one at a
time, and after each one check whether skipping whitespace reaches a
`-`; the first success ends the match after the `-` and its trailing
whitespace.  This is exactly the `re` backtracking order for
`[^|]+?\s*-\s*`. -/
def matchDashTail : List Char → Option (List Char)
  | [] => none
  | c :: rest =>
    if c = '|' then none
    else
      match rest.dropWhile isPySpace with
      | '-' :: r2 => some (r2.dropWhile isPySpace)
      | _ => matchDashTail rest

/-- Match the whole loguru line-prefix regex
`\d{4}-\d{2}-\d{2}\s+\d{2}:\d{2}:\d{2}\.\d{3}\s*\|\s*[A-Z]+\s*\|\s*[^|]+?\s*-\s*`
at the current position. -/
def matchLoguruAt (cs : List Char) : Option (List Char) :=
  (matchTsLevelLoggerAt cs).bind matchDashTail

/-- `re.sub(pattern, '', s)` for a matcher that always consumes at least
one character: remove every non-overlapping leftmost match.  The fuel is
instantiated with the input length, which bounds the number of recursion
steps because every step consumes at least one character. -/
def removeAllMatches (m : List Char → Option (List Char)) : Nat → List Char → List Char
  | 0, cs => cs
  | _ + 1, [] => []
  | fuel + 1, c :: t =>
    match m (c :: t) with
    | some rest => removeAllMatches m fuel rest
    | none => c :: removeAllMatches m fuel t

/-! ## `LogMonitor.get_log_level` -/

/-- The level alternatives of the pattern
`\|\s*(INFO|ERROR|WARNING|DEBUG|TRACE|CRITICAL)\s*\|`
(the words have pairwise distinct first letters, so at most one
alternative can match at a given position). -/
def levelWords : List String := ["INFO", "ERROR", "WARNING", "DEBUG", "TRACE", "CRITICAL"]

/-- Try to match `\|\s*LEVEL\s*\|` at the current position. -/
def matchLevelAt : List Char → Option String
  | '|' :: rest =>
    let r1 := rest.dropWhile isPySpace
    levelWords.findSome? fun w =>
      if w.data.isPrefixOf r1 then
        match (r1.drop w.data.length).dropWhile isPySpace with
        | '|' :: _ => some w
        | _ => none
      else none
  | _ => none

/-- `re.search` scan for `get_log_level`. -/
def getLogLevelList : List Char → Option String
  | [] => none
  | c :: t =>
    match matchLevelAt (c :: t) with
    | some w => some w
    | none => getLogLevelList t

/-- `LogMonitor.get_log_level`: detect the loguru level of a line. -/
def get_log_level (line : String) : Option String := getLogLevelList line.data

/-! ## `LogMonitor` line classification -/

/-- `LogMonitor.target_node_patterns`. -/
def target_node_patterns : List String :=
  [ "FirstSummaryNode",
    "ReflectionSummaryNode",
    "InsightEngine.nodes.summary_node",
    "MediaEngine.nodes.summary_node",
    "QueryEngine.nodes.summary_node",
    "nodes.summary_node",
    "Generating first paragraph summary",
    "Generating reflection summary" ]

/-- The error keywords excluded by `is_target_log_line`. -/
def error_keywords : List String :=
  ["JSON parsing failed", "JSON repair failed", "Traceback", "File \""]

/-- `LogMonitor.is_target_log_line`.  The source additionally tests
`"| ERROR    |" in line`, which is subsumed by the `"| ERROR" in line`
test and therefore dropped here. -/
def is_target_log_line (line : String) : Bool :=
  if get_log_level line = some "ERROR" then false
  else if strContains line "| ERROR" then false
  else if error_keywords.any (fun k => strContains line k) then false
  else target_node_patterns.any (fun p => strContains line p)

/-- `LogMonitor.is_valuable_content`'s exclusion patterns. -/
def exclude_patterns : List String :=
  [ "JSON parsing failed",
    "JSON repair failed",
    "Using cleaned text directly",
    "JSON parsing successful",
    "Successfully generated",
    "Updated paragraph",
    "Generating",
    "Started processing",
    "Processing complete",
    "Read HOST speech",
    "Failed to read HOST speech",
    "HOST speech not found",
    "Debug output",
    "Information record" ]

/-- `LogMonitor.is_valuable_content`: the two `re.sub` calls remove every
occurrence of `\[\d{2}:\d{2}:\d{2}\]` and of the loguru line prefix. -/
def is_valuable_content (line : String) : Bool :=
  if strContains line "Cleaned output" then true
  else if exclude_patterns.any (fun p => strContains line p) then false
  else
    let c1 := removeAllMatches matchOldTsAt line.data.length line.data
    let c2 := removeAllMatches matchLoguruAt c1.length c1
    let cl := stripChars c2
    decide (30 ≤ cl.length)

/-- `LogMonitor.is_json_start_line`. -/
def is_json_start_line (line : String) : Bool := strContains line "Cleaned output: \x7b"

/-- The anchored timestamp-stripping sequence used both in
`process_lines_for_json` (lines 511-516) and on the continuation lines in
`extract_json_content` (lines 283-286): first
`re.sub(r'^\[\d{2}:\d{2}:\d{2}\]\s*', '', ·)`, then the anchored loguru
prefix sub.  Anchored patterns can match at most once. -/
def stripLinePrefix (cs : List Char) : List Char :=
  let c1 := match matchOldTsAt cs with
    | some r => r.dropWhile isPySpace
    | none => cs
  match matchLoguruAt c1 with
  | some r => r
  | none => c1

/-- The end-of-JSON test of `process_lines_for_json` (lines 510-519):
strip the line, strip the prefixes, strip again, and compare with the two
end markers. -/
def cleanedEndCheck (line : String) : String :=
  String.mk (stripChars (stripLinePrefix (stripChars line.data)))

/-! ## JSON values, `json.loads` and `json.dumps`

Model of Python's `json` module as used by the monitor.  Numbers are kept
as their source lexemes: no claim of this development observes numeric
values, only structure, strings and truthiness. -/

/-- A JSON value as produced by `json.loads`. -/
inductive JVal where
  | null
  | bool (b : Bool)
  | num (lexeme : String)
  | str (s : String)
  | arr (items : List JVal)
  | obj (fields : List (String × JVal))
deriving Inhabited

/-- JSON whitespace (the only characters skipped by `json.loads`). -/
def isJsonWs (c : Char) : Bool := c = ' ' || c = '\t' || c = '\n' || c = '\r'

/-- Skip JSON whitespace. -/
def skipJsonWs (cs : List Char) : List Char := cs.dropWhile isJsonWs

/-- Value of a hexadecimal digit. -/
def hexVal (c : Char) : Option Nat :=
  if c.isDigit then some (c.toNat - 48)
  else if 'a' ≤ c && c ≤ 'f' then some (c.toNat - 87)
  else if 'A' ≤ c && c ≤ 'F' then some (c.toNat - 55)
  else none

/-- Parse the body of a JSON string (after the opening quote), in strict
mode: raw control characters are rejected, escapes are the eight standard
ones plus `\uXXXX` with surrogate-pair combination.  A lone surrogate is
kept by Python; `Char` cannot represent it, so `Char.ofNat` degrades it —
no input handled by the claims contains `\u` escapes.  Fuel-recursive
(every step consumes at least one character, so passing the input length
plus one makes the fuel-exhaustion branch unreachable). -/
def parseStringBodyF : Nat → List Char → List Char → Option (String × List Char)
  | 0, _, _ => none
  | _ + 1, '"' :: rest, acc => some (String.mk acc.reverse, rest)
  | fuel + 1, '\\' :: 'u' :: a :: b :: c :: d :: rest, acc =>
    (match hexVal a, hexVal b, hexVal c, hexVal d with
    | some va, some vb, some vc, some vd =>
      let u := ((va * 16 + vb) * 16 + vc) * 16 + vd
      if 0xD800 ≤ u && u ≤ 0xDBFF then
        match rest with
        | '\\' :: 'u' :: a2 :: b2 :: c2 :: d2 :: r5 =>
          (match hexVal a2, hexVal b2, hexVal c2, hexVal d2 with
          | some w1, some w2, some w3, some w4 =>
            let u2 := ((w1 * 16 + w2) * 16 + w3) * 16 + w4
            if 0xDC00 ≤ u2 && u2 ≤ 0xDFFF then
              parseStringBodyF fuel r5
                (Char.ofNat (0x10000 + (u - 0xD800) * 0x400 + (u2 - 0xDC00)) :: acc)
            else
              parseStringBodyF fuel rest (Char.ofNat u :: acc)
          | _, _, _, _ => none)
        | _ => parseStringBodyF fuel rest (Char.ofNat u :: acc)
      else
        parseStringBodyF fuel rest (Char.ofNat u :: acc)
    | _, _, _, _ => none)
  | fuel + 1, '\\' :: e :: rest, acc =>
    if e = '"' then parseStringBodyF fuel rest ('"' :: acc)
    else if e = '\\' then parseStringBodyF fuel rest ('\\' :: acc)
    else if e = '/' then parseStringBodyF fuel rest ('/' :: acc)
    else if e = 'b' then parseStringBodyF fuel rest ('\x08' :: acc)
    else if e = 'f' then parseStringBodyF fuel rest ('\x0c' :: acc)
    else if e = 'n' then parseStringBodyF fuel rest ('\n' :: acc)
    else if e = 'r' then parseStringBodyF fuel rest ('\r' :: acc)
    else if e = 't' then parseStringBodyF fuel rest ('\t' :: acc)
    else none
  | _ + 1, ['\\'], _ => none
  | fuel + 1, c :: rest, acc =>
    if c.toNat < 0x20 then none else parseStringBodyF fuel rest (c :: acc)
  | _ + 1, [], _ => none

/-- String-body parser with ample fuel. -/
def parseStringBody (cs : List Char) (acc : List Char) : Option (String × List Char) :=
  parseStringBodyF (cs.length + 1) cs acc

/-- The integer part `-?(?:0|[1-9]\\d*)` of the JSON number regex. -/
def parseNumInt (cs : List Char) : Option (List Char × List Char) :=
  let (sign, r1) := match cs with
    | '-' :: t => ((['-'] : List Char), t)
    | _ => (([] : List Char), cs)
  match r1 with
  | [] => none
  | c :: t =>
    if c = '0' then some (sign ++ ['0'], t)
    else if c.isDigit then
      some (sign ++ c :: t.takeWhile Char.isDigit, t.dropWhile Char.isDigit)
    else none

/-- The JSON number lexeme regex `(-?(?:0|[1-9]\\d*))(\\.\\d+)?([eE][-+]?\\d+)?`. -/
def parseNumber (cs : List Char) : Option (String × List Char) :=
  match parseNumInt cs with
  | none => none
  | some (ip, r2) =>
    let (frac, r3) := match r2 with
      | '.' :: t2 =>
        let ds := t2.takeWhile Char.isDigit
        if ds.isEmpty then (([] : List Char), r2)
        else ('.' :: ds, t2.dropWhile Char.isDigit)
      | _ => ([], r2)
    let (ex, r4) := match r3 with
      | e :: t3 =>
        if e = 'e' || e = 'E' then
          let (sg2, t4) := match t3 with
            | '+' :: t5 => ((['+'] : List Char), t5)
            | '-' :: t5 => ((['-'] : List Char), t5)
            | _ => (([] : List Char), t3)
          let ds := t4.takeWhile Char.isDigit
          if ds.isEmpty then (([] : List Char), r3)
          else (e :: sg2 ++ ds, t4.dropWhile Char.isDigit)
        else ([], r3)
      | [] => ([], r3)
    some (String.mk (ip ++ frac ++ ex), r4)

/-- Python `dict` insertion: a duplicate key keeps its first position and
takes the last value. -/
def objInsert (fields : List (String × JVal)) (k : String) (v : JVal) : List (String × JVal) :=
  match fields with
  | [] => [(k, v)]
  | (k', v') :: t => if k' = k then (k', v) :: t else (k', v') :: objInsert t k v

/-- Lookup in a parsed JSON object (keys are unique by construction). -/
def jGet (fields : List (String × JVal)) (k : String) : Option JVal :=
  match fields with
  | [] => none
  | (k', v) :: t => if k' = k then some v else jGet t k

/-- Object member list parser; `pv` parses one value.  The fuel bounds the
number of members and is always ample at call sites. -/
def parseMembers (pv : List Char → Option (JVal × List Char)) :
    Nat → List Char → List (String × JVal) → Option (JVal × List Char)
  | 0, _, _ => none
  | fuel + 1, cs, acc =>
    match cs with
    | '"' :: rest =>
      match parseStringBody rest [] with
      | some (k, r1) =>
        match skipJsonWs r1 with
        | ':' :: r2 =>
          match pv (skipJsonWs r2) with
          | some (v, r3) =>
            let acc' := objInsert acc k v
            match skipJsonWs r3 with
            | ',' :: r4 => parseMembers pv fuel (skipJsonWs r4) acc'
            | '}' :: r4 => some (.obj acc', r4)
            | _ => none
          | none => none
        | _ => none
      | none => none
    | _ => none

/-- Array element list parser. -/
def parseElements (pv : List Char → Option (JVal × List Char)) :
    Nat → List Char → List JVal → Option (JVal × List Char)
  | 0, _, _ => none
  | fuel + 1, cs, acc =>
    match pv cs with
    | some (v, r1) =>
      match skipJsonWs r1 with
      | ',' :: r2 => parseElements pv fuel (skipJsonWs r2) (v :: acc)
      | ']' :: r2 => some (.arr (v :: acc).reverse, r2)
      | _ => none
    | none => none

/-- Recursive-descent JSON value parser (Python's scanner, including the
non-standard `NaN` / `Infinity` constants accepted by default). -/
def parseValue : Nat → List Char → Option (JVal × List Char)
  | 0, _ => none
  | fuel + 1, cs =>
    match cs with
    | '{' :: rest =>
      match skipJsonWs rest with
      | '}' :: r2 => some (.obj [], r2)
      | r => parseMembers (parseValue fuel) fuel r []
    | '[' :: rest =>
      match skipJsonWs rest with
      | ']' :: r2 => some (.arr [], r2)
      | r => parseElements (parseValue fuel) fuel r []
    | '"' :: rest => (parseStringBody rest []).map (fun p => (.str p.1, p.2))
    | 't' :: 'r' :: 'u' :: 'e' :: rest => some (.bool true, rest)
    | 'f' :: 'a' :: 'l' :: 's' :: 'e' :: rest => some (.bool false, rest)
    | 'n' :: 'u' :: 'l' :: 'l' :: rest => some (.null, rest)
    | 'N' :: 'a' :: 'N' :: rest => some (.num "NaN", rest)
    | 'I' :: 'n' :: 'f' :: 'i' :: 'n' :: 'i' :: 't' :: 'y' :: rest =>
      some (.num "Infinity", rest)
    | '-' :: 'I' :: 'n' :: 'f' :: 'i' :: 'n' :: 'i' :: 't' :: 'y' :: rest =>
      some (.num "-Infinity", rest)
    | _ => (parseNumber cs).map (fun p => (.num p.1, p.2))

/-- `json.loads`: a complete JSON document with optional surrounding
whitespace. -/
def loads (s : String) : Option JVal :=
  match parseValue (s.data.length + 1) (skipJsonWs s.data) with
  | some (v, rest) => if (skipJsonWs rest).isEmpty then some v else none
  | none => none

/-- Lowercase hexadecimal digit (Python's `\u%04x` formatting). -/
def hexDigit (n : Nat) : Char := if n < 10 then Char.ofNat (48 + n) else Char.ofNat (87 + n)

/-- `json.dumps` escaping of one character (`ensure_ascii=False`). -/
def jsonEscapeChar (c : Char) : List Char :=
  if c = '"' then ['\\', '"']
  else if c = '\\' then ['\\', '\\']
  else if c = '\n' then ['\\', 'n']
  else if c = '\r' then ['\\', 'r']
  else if c = '\t' then ['\\', 't']
  else if c = '\x08' then ['\\', 'b']
  else if c = '\x0c' then ['\\', 'f']
  else if c.toNat < 0x20 then
    ['\\', 'u', '0', '0', hexDigit (c.toNat / 16), hexDigit (c.toNat % 16)]
  else [c]

/-- Encode a string literal for `json.dumps`. -/
def encodeJsonString (s : String) : String :=
  String.mk ('"' :: s.data.foldr (fun c acc => jsonEscapeChar c ++ acc) ['"'])

/-- `indent=2` indentation prefix. -/
def indentStr (lvl : Nat) : String := String.mk (List.replicate (2 * lvl) ' ')

/-- `json.dumps(v, ensure_ascii=False, indent=2)`.  Fuel-recursive (the
monitor only serializes values obtained from `json.loads`, whose depth is
below the fuel supplied by the caller).  Number lexemes are emitted
verbatim (see `JVal.num`). -/
def dumpsVal : Nat → Nat → JVal → String
  | 0, _, _ => ""
  | fuel + 1, lvl, v =>
    match v with
    | .null => "null"
    | .bool true => "true"
    | .bool false => "false"
    | .num lx => lx
    | .str s => encodeJsonString s
    | .arr [] => "[]"
    | .obj [] => "\x7b\x7d"
    | .arr items =>
      "[\n" ++
        String.intercalate ",\n"
          (items.map (fun it => indentStr (lvl + 1) ++ dumpsVal fuel (lvl + 1) it)) ++
        "\n" ++ indentStr lvl ++ "]"
    | .obj fields =>
      "\x7b\n" ++
        String.intercalate ",\n"
          (fields.map (fun kv =>
            indentStr (lvl + 1) ++ encodeJsonString kv.1 ++ ": " ++ dumpsVal fuel (lvl + 1) kv.2)) ++
        "\n" ++ indentStr lvl ++ "\x7d"

/-- Python truthiness of a number lexeme (`bool(float(lexeme))`): zero iff
the mantissa has digits and they are all `0`; `NaN` and the infinities are
truthy. -/
def numIsZero (lx : String) : Bool :=
  let cs := match lx.data with
    | '-' :: t => t
    | cs => cs
  let mantissa := cs.takeWhile (fun c => c.isDigit || c = '.')
  (mantissa.filter Char.isDigit).all (· = '0') && mantissa.any Char.isDigit

/-- Python truthiness of a JSON value. -/
def jtruthy : JVal → Bool
  | .null => false
  | .bool b => b
  | .num lx => !numIsZero lx
  | .str s => !s.isEmpty
  | .arr items => !items.isEmpty
  | .obj fields => !fields.isEmpty

/-! ## `LogMonitor.fix_json_string` -/

/-- The character-level repair loop of `fix_json_string` (lines 792-844):
walk the text tracking `in_string` / `escape_next`; an interior quote that
is not followed (after optional whitespace) by `:`, `,` or `}` is escaped. -/
def fixJsonAux (inStr escapeNext : Bool) : List Char → List Char
  | [] => []
  | c :: rest =>
    if escapeNext then c :: fixJsonAux inStr false rest
    else if c = '\\' then c :: fixJsonAux inStr true rest
    else if c = '"' then
      if inStr then
        match rest.dropWhile isPySpace with
        | [] => '"' :: fixJsonAux false false rest
        | nc :: _ =>
          if nc = ':' || nc = ',' || nc = '}' then '"' :: fixJsonAux false false rest
          else '\\' :: '"' :: fixJsonAux true false rest
      else '"' :: fixJsonAux true false rest
    else c :: fixJsonAux inStr false rest

/-- `LogMonitor.fix_json_string`: return the input unchanged when it
already parses; otherwise run the repair loop and return the repaired
text only when it parses; `none` models Python's `None`. -/
def fix_json_string (json_text : String) : Option String :=
  match loads json_text with
  | some _ => some json_text
  | none =>
    match loads (String.mk (fixJsonAux false false json_text.data)) with
    | some _ => some (String.mk (fixJsonAux false false json_text.data))
    | none => none

/-! ## `LogMonitor.extract_node_content` and `_clean_content_tags` -/

/-- `re.search(r'\[\d{2}:\d{2}:\d{2}\]\s*(.+)', line)`: scan for the first
old-format timestamp followed by whitespace and at least one captured
character.  When everything after the timestamp is whitespace, `\s*`
backtracks and the capture group takes the final character. -/
def searchOldTsCapture : List Char → Option (List Char)
  | [] => none
  | c :: t =>
    match matchOldTsAt (c :: t) with
    | some rest =>
      match rest.dropWhile isPySpace with
      | a :: as => some (a :: as)
      | [] =>
        match rest.reverse with
        | l :: _ => some [l]
        | [] => searchOldTsCapture t
    | none => searchOldTsCapture t

/-- The `[^|]+?\s*-\s*(.+)` tail with the capture group: as in
`matchDashTail`, but the capture must be non-empty; when the text after
the dash is all whitespace, the trailing `\s*` backtracks and the capture
takes the final character; when nothing follows the dash the engine keeps
expanding `[^|]+?`. -/
def dashTailCapture : List Char → Option (List Char)
  | [] => none
  | c :: rest =>
    if c = '|' then none
    else
      match rest.dropWhile isPySpace with
      | '-' :: r2 =>
        (match r2.dropWhile isPySpace with
        | a :: as => some (a :: as)
        | [] =>
          match r2.reverse with
          | l :: _ => some [l]
          | [] => dashTailCapture rest)
      | _ => dashTailCapture rest

/-- `re.search` for the loguru prefix regex with a `(.+)` capture group
(`extract_node_content`, line 341). -/
def searchNewCapture : List Char → Option (List Char)
  | [] => none
  | c :: t =>
    match (matchTsLevelLoggerAt (c :: t)).bind dashTailCapture with
    | some g => some g
    | none => searchNewCapture t

/-- Consume the non-greedy `.*?` of `^\[.*?\]\s*` up to the first `]`
(`.` does not match a newline). -/
def dropToAfterRBracket : List Char → Option (List Char)
  | [] => none
  | c :: t =>
    if c = ']' then some t
    else if c = '\n' then none
    else dropToAfterRBracket t

/-- Match `\[.*?\]\s*` at the current position. -/
def matchBracketAnyAt : List Char → Option (List Char)
  | '[' :: rest => (dropToAfterRBracket rest).map (·.dropWhile isPySpace)
  | _ => none

/-- The combination of the unconditional `re.sub(r'^\[.*?\]\s*', '', ·)`
and the following `while re.match` loop in `extract_node_content`
(lines 349-353): remove leading bracket groups until none is left.
Each removal consumes at least two characters, so the input length is
ample fuel. -/
def repeatRemoveLeadingBracket : Nat → List Char → List Char
  | 0, cs => cs
  | fuel + 1, cs =>
    match matchBracketAnyAt cs with
    | some r => repeatRemoveLeadingBracket fuel r
    | none => cs

/-- Case-insensitive literal match (patterns are supplied lowercase). -/
def matchCI : List Char → List Char → Option (List Char)
  | [], cs => some cs
  | _ :: _, [] => none
  | p :: ps, c :: cs => if c.toLower = p then matchCI ps cs else none

/-- Match `\[NAME\]\s*` (case-insensitively) at the current position. -/
def matchBracketNameAt (nameLower : List Char) : List Char → Option (List Char)
  | '[' :: rest =>
    (matchCI nameLower rest).bind fun r =>
      match r with
      | ']' :: r2 => some (r2.dropWhile isPySpace)
      | _ => none
  | _ => none

/-- Anchored `re.sub(rf'^{NAME}\s+', '', ·, flags=IGNORECASE)`. -/
def removeNamePrefixCI (nameLower : List Char) (cs : List Char) : List Char :=
  match (matchCI nameLower cs).bind (fun r =>
      match r with
      | c :: t => if isPySpace c then some (t.dropWhile isPySpace) else none
      | [] => none) with
  | some r => r
  | none => cs

/-- `re.sub(r'\s+', ' ', ·)`: collapse every whitespace run to a single
space.  The flag records whether the previous character belonged to a
run already replaced. -/
def collapseWsAux (afterSpace : Bool) : List Char → List Char
  | [] => []
  | c :: t =>
    if isPySpace c then
      if afterSpace then collapseWsAux true t
      else ' ' :: collapseWsAux true t
    else c :: collapseWsAux false t

/-- `re.sub(r'\s+', ' ', ·)`. -/
def collapseWs (cs : List Char) : List Char := collapseWsAux false cs

/-- The literal prefixes removed by `extract_node_content`. -/
def prefixes_to_remove : List String :=
  ["First summary: ", "Reflection summary: ", "Cleaned output: "]

/-- Remove the first matching known prefix (the Python loop `break`s after
the first hit). -/
def removeKnownPrefix (cs : List Char) : List Char :=
  match prefixes_to_remove.findSome? (fun p =>
      if p.data.isPrefixOf cs then some (cs.drop p.data.length) else none) with
  | some r => r
  | none => cs

/-- `LogMonitor.extract_node_content`. -/
def extract_node_content (line : String) : String :=
  let content0 := line.data
  let content1 :=
    match searchOldTsCapture content0 with
    | some g => stripChars g
    | none =>
      match searchNewCapture content0 with
      | some g => stripChars g
      | none => content0
  if content1.isEmpty then pyStrip line
  else
    let c2 := repeatRemoveLeadingBracket content1.length content1
    let c3 := removeKnownPrefix c2
    let c4 := ["insight", "media", "query"].foldl
      (fun acc n => removeNamePrefixCI n.data acc) c3
    String.mk (stripChars (collapseWs c4))

/-- `LogMonitor._clean_content_tags`.  The `app_name` parameter of the
source is unused by its body and therefore omitted. -/
def _clean_content_tags (content : String) : String :=
  if content = "" then content
  else
    let c1 := ["insight", "media", "query"].foldl
      (fun acc n =>
        let acc' := removeAllMatches (matchBracketNameAt n.data) acc.length acc
        removeNamePrefixCI n.data acc') content.data
    let c2 := match matchBracketAnyAt c1 with
      | some r => r
      | none => c1
    String.mk (stripChars (collapseWs c2))

/-! ## `LogMonitor.format_json_content` and `extract_json_content` -/

/-- `LogMonitor.format_json_content`.  For a non-object value the Python
body either raises a `TypeError` inside its `try` (membership test /
subscript on a non-container) — caught by the local `except`, which
returns the dumps fallback — or leaves `content = None`; in every case a
non-object input produces the dumps fallback, which is what this
definition returns directly.  An object's summary field is returned when
truthy (it is returned *as the raw JSON value*: the source does not check
that it is a string). -/
def format_json_content (fuel : Nat) (j : JVal) : JVal :=
  let fallback := JVal.str ("Cleaned output: " ++ dumpsVal fuel 0 j)
  match j with
  | .obj fields =>
    (match jGet fields "updated_paragraph_latest_state" with
    | some v => if jtruthy v then v else fallback
    | none =>
      match jGet fields "paragraph_latest_state" with
      | some v => if jtruthy v then v else fallback
      | none => fallback)
  | _ => fallback

/-- Locate the first line containing `Cleaned output: {` and return it
together with the following lines (`json_lines[json_start_idx+1:]`). -/
def splitAtFirstCleanedOutput : List String → Option (String × List String)
  | [] => none
  | l :: ls =>
    if strContains l "Cleaned output: \x7b" then some (l, ls)
    else splitAtFirstCleanedOutput ls

/-- `first_line[json_start_pos + len("Cleaned output: "):]` — the JSON
part of the start line, beginning at its `{`. -/
def jsonPartOf (l : String) : Option (List Char) :=
  (findSub l.data "Cleaned output: \x7b".data).map (fun p => l.data.drop (p + 16))

/-- The parse-then-repair sequence shared by both branches of
`extract_json_content`: `json.loads`, and on failure `fix_json_string`
followed by `json.loads` of the (already verified) repaired text. -/
def loadsOrRepair (txt : String) : Option JVal :=
  match loads txt with
  | some v => some v
  | none =>
    match fix_json_string txt with
    | some fixedTxt => loads fixedTxt
    | none => none

/-- `LogMonitor.extract_json_content`: returns the value produced by
`format_json_content` on the parsed JSON (`none` models Python `None`).
The returned value is always truthy, and the monitor treats a non-string
result as a crash (see `processOneLine`). -/
def extract_json_content (json_lines : List String) : Option JVal :=
  match splitAtFirstCleanedOutput json_lines with
  | none => none
  | some (first_line, rest) =>
    match jsonPartOf first_line with
    | none => none
    | some json_part =>
      if listEndsWith (stripChars json_part) ['}']
          && (countChar json_part '{' == countChar json_part '}') then
        (loadsOrRepair (String.mk (stripChars json_part))).map
          (format_json_content (json_part.length + 1))
      else
        let json_text := json_part ++ (rest.map (fun l => stripLinePrefix l.data)).flatten
        (loadsOrRepair (String.mk (stripChars json_text))).map
          (format_json_content (json_text.length + 1))

/-! ## `LogMonitor.process_lines_for_json` -/

/-- The per-engine multi-line capture state (`capturing_json[app]`,
`json_buffer[app]`, `in_error_block[app]`).  The source also records
`json_start_line[app]`, which is written but never read, and is omitted. -/
structure TailState where
  capturing : Bool
  json_buffer : List String
  in_error_block : Bool
deriving Repr, DecidableEq

/-- The branches of `process_lines_for_json` after the level bookkeeping
(source lines 468-530).  `Except.error st` models an uncaught `TypeError`
escaping from `_clean_content_tags` when `extract_json_content` returns a
truthy non-string value (`re.sub` on a non-`str`); the error carries the
state at the moment of the crash (the captured contents list is a local
variable and is lost). -/
def processAfterLevel (st : TailState) (captured : List String) (line : String) :
    Except TailState (TailState × List String) :=
  if st.in_error_block then
    .ok ({ st with
            capturing := false,
            json_buffer := if st.capturing then [] else st.json_buffer },
         captured)
  else if is_target_log_line line && is_json_start_line line then
    (if listEndsWith (stripChars line.data) ['}'] then
      match extract_json_content [line] with
      | some (.str s) =>
        .ok ({ st with capturing := false, json_buffer := [] },
             captured ++ [_clean_content_tags s])
      | some _ => .error { st with capturing := true, json_buffer := [line] }
      | none => .ok ({ st with capturing := false, json_buffer := [] }, captured)
    else
      .ok ({ st with capturing := true, json_buffer := [line] }, captured))
  else if is_target_log_line line && is_valuable_content line then
    .ok (st, captured ++ [_clean_content_tags (extract_node_content line)])
  else if st.capturing then
    (if cleanedEndCheck line = "\x7d" ∨ cleanedEndCheck line = "] \x7d" then
      match extract_json_content (st.json_buffer ++ [line]) with
      | some (.str s) =>
        .ok ({ st with capturing := false, json_buffer := [] },
             captured ++ [_clean_content_tags s])
      | some _ => .error { st with capturing := true, json_buffer := st.json_buffer ++ [line] }
      | none => .ok ({ st with capturing := false, json_buffer := [] }, captured)
    else
      .ok ({ st with json_buffer := st.json_buffer ++ [line] }, captured))
  else
    .ok (st, captured)

/-- The loop body of `process_lines_for_json` for a single line: skip
blank lines, handle the level bookkeeping (an ERROR line enters the error
block and discards an in-flight capture; an INFO line leaves it), then
dispatch on the error-block flag and the line classification
(`processAfterLevel`). -/
def processOneLine (st : TailState) (captured : List String) (line : String) :
    Except TailState (TailState × List String) :=
  if pyStrip line = "" then .ok (st, captured)
  else if get_log_level line = some "ERROR" then
    .ok ({ st with
            in_error_block := true,
            capturing := false,
            json_buffer := if st.capturing then [] else st.json_buffer },
         captured)
  else
    processAfterLevel
      (if get_log_level line = some "INFO" then { st with in_error_block := false } else st)
      captured line

/-- Fold of `processOneLine` over the new lines. -/
def processLinesAux : List String → TailState → List String →
    Except TailState (TailState × List String)
  | [], st, captured => .ok (st, captured)
  | l :: ls, st, captured =>
    match processOneLine st captured l with
    | .ok (st', captured') => processLinesAux ls st' captured'
    | .error e => .error e

/-- `LogMonitor.process_lines_for_json` from a given capture state:
returns the captured content items and the final state (or the crash
state). -/
def process_lines_for_json (lines : List String) (st : TailState) :
    Except TailState (TailState × List String) :=
  processLinesAux lines st []

/-! ## `LogMonitor.read_new_lines` (C4)

The file is modelled by its current content (`none` when it does not
exist); sizes are character counts (the logs are read as text). -/

/-- The per-engine read state: `file_positions[app]` plus the capture
state reset on truncation. -/
structure EngineReadState where
  position : Nat
  capturing : Bool
  json_buffer : List String
  in_error_block : Bool
deriving Repr, DecidableEq

/-- Python `str.split(sep)` for a single-character separator. -/
def splitOnChar (sep : Char) : List Char → List (List Char)
  | [] => [[]]
  | c :: t =>
    let r := splitOnChar sep t
    if c = sep then [] :: r
    else
      match r with
      | h :: tl => (c :: h) :: tl
      | [] => [[c]]

/-- `[line.strip() for line in content.split('\n') if line.strip()]`. -/
def stripNonEmptyLines (cs : List Char) : List String :=
  ((splitOnChar '\n' cs).map stripChars).filter (fun l => !l.isEmpty) |>.map String.mk

/-- `LogMonitor.read_new_lines`: on truncation (current size below the
recorded offset) the local read offset is reset to `0` and the capture
state is cleared; the new region is then read, split into stripped
non-empty lines, and the stored offset advances to the end of file. -/
def read_new_lines (file : Option String) (st : EngineReadState) :
    List String × EngineReadState :=
  match file with
  | none => ([], st)
  | some content =>
    let current_size := content.data.length
    let (last_position, st1) :=
      if current_size < st.position then
        (0, { st with capturing := false, json_buffer := [], in_error_block := false })
      else
        (st.position, st)
    if current_size > last_position then
      (stripNonEmptyLines (content.data.drop last_position),
       { st1 with position := current_size })
    else
      ([], st1)

/-! ## `LogMonitor.write_to_forum_log` (C5) -/

/-- Python `str.replace(old, new)` for a single-character needle. -/
def replaceChar (target : Char) (rep : List Char) : List Char → List Char
  | [] => []
  | c :: t => (if c = target then rep else [c]) ++ replaceChar target rep t

/-- `content.replace('\n', '\\n').replace('\r', '\\r')` (line 115). -/
def contentOneLine (content : String) : List Char :=
  replaceChar '\r' ['\\', 'r'] (replaceChar '\n' ['\\', 'n'] content.data)

/-- A decimal digit character. -/
def digitChar (d : Nat) : Char := Char.ofNat (48 + d)

/-- Two-digit zero-padded field of `strftime('%H:%M:%S')`. -/
def fmt2 (n : Nat) : List Char := [digitChar (n / 10), digitChar (n % 10)]

/-- The `HH:MM:SS` timestamp written by `write_to_forum_log`. -/
def timestampHMS (h m s : Nat) : List Char :=
  fmt2 h ++ ':' :: fmt2 m ++ ':' :: fmt2 s

/-- The single line appended to `forum.log` by `write_to_forum_log`
(the wall-clock time is a parameter; the write lock serializes whole
lines, so the file contents are exactly the concatenation of these). -/
def write_to_forum_log_line (h m s : Nat) (content : String) (source : Option String) :
    List Char :=
  match source with
  | some src =>
    '[' :: timestampHMS h m s ++ ']' :: ' ' :: '[' :: src.data ++ ']' :: ' ' ::
      contentOneLine content ++ ['\n']
  | none =>
    '[' :: timestampHMS h m s ++ ']' :: ' ' :: contentOneLine content ++ ['\n']

/-- Decidable checker for the forum-log line grammar
`^\[\d{2}:\d{2}:\d{2}\] \[[A-Z]+\] <body>\n$` with a body free of raw
newlines and carriage returns and exactly one terminating newline. -/
def checkForumBody : List Char → Bool
  | [] => false
  | c :: t =>
    match t with
    | [] => c = '\n'
    | _ :: _ => c ≠ '\n' && c ≠ '\r' && checkForumBody t

/-- Source-tag part of the grammar: `[A-Z]+\] ` then the body. -/
def checkForumSource (seen1 : Bool) : List Char → Bool
  | [] => false
  | c :: t =>
    if c = ']' then
      seen1 &&
        match t with
        | ' ' :: body => checkForumBody body
        | _ => false
    else c.isUpper && checkForumSource true t

/-- Whole-line grammar check for a tagged forum-log line. -/
def matchesForumGrammar : List Char → Bool
  | '[' :: d1 :: d2 :: ':' :: d3 :: d4 :: ':' :: d5 :: d6 :: ']' :: ' ' :: '[' :: rest =>
    d1.isDigit && d2.isDigit && d3.isDigit && d4.isDigit && d5.isDigit && d6.isDigit &&
      checkForumSource false rest
  | _ => false

/-! ## Host-speech triggering (C6)

`generate_host_speech` is an external LLM call, modelled by an oracle
`host : List String → Option String` (`none` covers both a falsy return
and a raised exception, which leave the buffer untouched).  The forum log
record is modelled by its `(source, content)` pair, and `host_calls`
counts the calls of `generate_host_speech`. -/

/-- `host_speech_threshold` (line 50). -/
def host_speech_threshold : Nat := 5

/-- The monitor state relevant to the moderator loop. -/
structure HostMonState where
  agent_speeches_buffer : List String
  is_host_generating : Bool
  forum : List (String × String)
  host_calls : Nat
deriving Repr, DecidableEq

/-- `LogMonitor._trigger_host_speech` (with `HOST_AVAILABLE` a
parameter). -/
def trigger_host_speech (hostAvailable : Bool) (host : List String → Option String)
    (st : HostMonState) : HostMonState :=
  if !hostAvailable || st.is_host_generating then st
  else
    let recent := st.agent_speeches_buffer.take 5
    if recent.length < 5 then { st with is_host_generating := false }
    else
      match host recent with
      | some speech =>
        { st with
          is_host_generating := false,
          forum := st.forum ++ [("HOST", speech)],
          agent_speeches_buffer := st.agent_speeches_buffer.drop 5,
          host_calls := st.host_calls + 1 }
      | none =>
        { st with is_host_generating := false, host_calls := st.host_calls + 1 }

/-- The publication loop of `monitor_logs` (lines 647-662) for the
captured content items of one poll: write each item to the forum log
under the engine tag, append the formatted log line to the buffer, and
trigger the host when the threshold is reached and no synthesis is in
flight. -/
def emit_contents (hostAvailable : Bool) (host : List String → Option String)
    (ts source_tag : String) (contents : List String) (st : HostMonState) : HostMonState :=
  contents.foldl
    (fun st content =>
      let st := { st with forum := st.forum ++ [(source_tag, content)] }
      let log_line := "[" ++ ts ++ "] [" ++ source_tag ++ "] " ++ content
      let st := { st with agent_speeches_buffer := st.agent_speeches_buffer ++ [log_line] }
      if host_speech_threshold ≤ st.agent_speeches_buffer.length && !st.is_host_generating then
        trigger_host_speech hostAvailable host st
      else st)
    st

/-! ## `FileCountBaseline.check_new_files` / `ReportAgent.check_input_files` (C3)

A directory is modelled by its listing (`none` when it does not exist);
the persisted baseline is a count map with the `dict.get(engine, 0)`
default. -/

/-- Number of `.md` files in a directory (`0` when it does not exist). -/
def countMd (listing : Option (List String)) : Nat :=
  match listing with
  | some files => (files.filter (fun f => listEndsWith f.data ".md".data)).length
  | none => 0

/-- The loop body of `check_new_files` for one engine: current count,
new-file delta, and the `all_have_new` contribution. -/
def checkOneEngine (baseline : String → Nat) (e : String)
    (d : Option (List String)) : Nat × Nat × Bool :=
  match d with
  | some _ =>
    let cnt := countMd d
    if baseline e < cnt then (cnt, cnt - baseline e, true)
    else (cnt, 0, false)
  | none => (0, 0, false)

/-- `FileCountBaseline.check_new_files`: `(ready, current_counts,
new_files_found)`. -/
def check_new_files (baseline : String → Nat)
    (dirs : List (String × Option (List String))) :
    Bool × List (String × Nat) × List (String × Nat) :=
  match dirs with
  | [] => (true, [], [])
  | (e, d) :: rest =>
    let (cnt, nf, ok) := checkOneEngine baseline e d
    let (allRest, curRest, newRest) := check_new_files baseline rest
    (ok && allRest, (e, cnt) :: curRest, (e, nf) :: newRest)

/-- `ReportAgent.check_input_files`'s readiness result: the
`check_new_files` verdict on the three engine directories conjoined with
the existence of the forum log. -/
def check_input_files_ready (baseline : String → Nat)
    (insight_dir media_dir query_dir : Option (List String))
    (forum_exists : Bool) : Bool :=
  (check_new_files baseline
      [("insight", insight_dir), ("media", media_dir), ("query", query_dir)]).1
    && forum_exists

/-! ## The reflection loop (C7)

`DeepSearchAgent._reflection_loop` (InsightEngine/agent.py) drives
`ReflectionSummaryNode.mutate_state`.  The `State`/`Paragraph`/`Research`
classes live in the engines' `state/state.py`, which is not under `src/`;
they are modelled from the spec.  LLM and search calls are oracles. -/

/-- Modelled from the spec: the `Research` record owned by a paragraph —
`latest_summary`, `reflection_count` (incremented by
`increment_reflection`, called from `ReflectionSummaryNode.mutate_state`),
and the append-only `search_history` (kept as `(query, result_count)`
pairs).  Its defining module `state/state.py` is not under `src/`. -/
structure Research where
  latest_summary : String := ""
  reflection_count : Nat := 0
  search_history : List (String × Nat) := []
deriving Repr, DecidableEq

/-- Modelled from the spec: `Research.increment_reflection` increments
the paragraph's reflection counter by one. -/
def Research.increment_reflection (r : Research) : Research :=
  { r with reflection_count := r.reflection_count + 1 }

/-- Modelled from the spec: `Research.add_search_results` appends one
`(query, results)` entry to the search history. -/
def Research.add_search_results (r : Research) (q : String) (n : Nat) : Research :=
  { r with search_history := r.search_history ++ [(q, n)] }

/-- A paragraph of the research state. -/
structure Paragraph where
  title : String := ""
  content : String := ""
  research : Research := {}
deriving Repr, DecidableEq

/-- The mutable research state (`state.paragraphs`). -/
structure RState where
  paragraphs : List Paragraph
deriving Repr, DecidableEq

/-- `FirstSummaryNode.mutate_state` (MediaEngine/nodes/summary_node.py,
lines 171-199): store the generated summary; no reflection increment.
`none` models the `ValueError` raised on an out-of-range index. -/
def FirstSummaryNode.mutate_state (summary : String) (st : RState) (i : Nat) :
    Option RState :=
  if i < st.paragraphs.length then
    let f := fun (p : Paragraph) =>
      { p with research := { p.research with latest_summary := summary } }
    some { st with paragraphs := st.paragraphs.modify f i }
  else none

/-- `ReflectionSummaryNode.mutate_state` (MediaEngine/nodes/summary_node.py,
lines 338-368): store the updated summary and call
`increment_reflection`. -/
def ReflectionSummaryNode.mutate_state (updated_summary : String) (st : RState) (i : Nat) :
    Option RState :=
  if i < st.paragraphs.length then
    let f := fun (p : Paragraph) =>
      { p with research :=
        ({ p.research with latest_summary := updated_summary }).increment_reflection }
    some { st with paragraphs := st.paragraphs.modify f i }
  else none

/-- One iteration of `_reflection_loop`: record the reflection search
results (`add_search_results`, line 688) and run the reflection-summary
state mutation (line 699).  The reflection query, result count and
summary come from the LLM/search oracles. -/
def reflection_iteration (q : String) (nres : Nat) (summary : String)
    (st : RState) (i : Nat) : Option RState :=
  if i < st.paragraphs.length then
    let f := fun (p : Paragraph) =>
      { p with research := p.research.add_search_results q nres }
    ReflectionSummaryNode.mutate_state summary
      { st with paragraphs := st.paragraphs.modify f i } i
  else none

/-- `DeepSearchAgent._reflection_loop`: `for reflection_i in
range(MAX_REFLECTIONS)` over `reflection_iteration`.  The oracle maps the
iteration index to `(query, result_count, summary)`. -/
def reflection_loop (oracle : Nat → String × Nat × String) (maxR : Nat)
    (st : RState) (i : Nat) : Option RState :=
  (List.range maxR).foldl
    (fun acc k =>
      acc.bind (fun s =>
        let (q, n, sm) := oracle k
        reflection_iteration q n sm s i))
    (some st)

/-- `DeepSearchAgent._process_paragraphs` step for one paragraph (agent
lines 424-441): initial search and summary, then the reflection loop
(`mark_completed` touches only the completion flag, not modelled). -/
def process_paragraph (firstSummary : String) (oracle : Nat → String × Nat × String)
    (maxR : Nat) (st : RState) (i : Nat) : Option RState :=
  (FirstSummaryNode.mutate_state firstSummary st i).bind
    (fun st1 => reflection_loop oracle maxR st1 i)

/-- The complete per-run pipeline: the report-structure node populates
`state.paragraphs` with fresh paragraphs (modelled from the spec:
planner output `{title, expected_content}`, reflection counters start at
zero), then every paragraph is processed in order. -/
def run_research (titles : List (String × String))
    (firstSummaries : Nat → String) (oracle : Nat → Nat → String × Nat × String)
    (maxR : Nat) : Option RState :=
  let st0 : RState :=
    { paragraphs := titles.map (fun tc => { title := tc.1, content := tc.2 }) }
  (List.range st0.paragraphs.length).foldl
    (fun acc i => acc.bind (fun s => process_paragraph (firstSummaries i) (oracle i) maxR s i))
    (some st0)

/-! ## The system-start guard (C8)

`app.py` lines 190-219.  Every access to the flags is performed under
`system_state_lock`, so the guard steps of concurrent requests are
serialized; a schedule of `n` requests is modelled by `n` sequential
`_prepare_system_start` steps. -/

/-- The `system_state` flag pair. -/
structure SystemState where
  started : Bool
  starting : Bool
deriving Repr, DecidableEq

/-- `_prepare_system_start`: `(new state, allowed, message)`. -/
def prepare_system_start (st : SystemState) : SystemState × Bool × Option String :=
  if st.started then (st, false, some "System already started")
  else if st.starting then (st, false, some "System is starting")
  else ({ st with starting := true }, true, none)

/-- A burst of `n` start requests with no intervening completion: each
runs the guard step; returns the final state and the number of requests
that were granted initialization. -/
def run_start_requests : Nat → SystemState → SystemState × Nat
  | 0, st => (st, 0)
  | n + 1, st =>
    let (st', ok, _) := prepare_system_start st
    let (st'', k) := run_start_requests n st'
    (st'', (if ok then 1 else 0) + k)

/-! ## `with_graceful_retry` (C9)

The wrapped operation is modelled by the outcome of each attempt; the
configured retryable exception tuple splits failures into retryable and
non-retryable ("fatal") ones.  Sleeping between attempts does not affect
the returned value. -/

/-- Outcome of one attempt of the wrapped operation. -/
inductive AttemptResult (α : Type) where
  | success (a : α)
  | retryableErr
  | fatalErr
deriving Repr, DecidableEq

/-- The attempt loop of `with_graceful_retry` from attempt index `k`
(`for attempt in range(config.max_retries + 1)`), returning the result
and the number of attempts actually executed.  The fuel is the number of
remaining loop iterations; the `0` case is the `return default_return`
after the loop. -/
def gracefulRetryAux (op : Nat → AttemptResult α) (defaultRet : α) (maxRetries : Nat) :
    Nat → Nat → α × Nat
  | 0, k => (defaultRet, k)
  | fuel + 1, k =>
    match op k with
    | .success a => (a, k + 1)
    | .fatalErr => (defaultRet, k + 1)
    | .retryableErr =>
      if k = maxRetries then (defaultRet, k + 1)
      else gracefulRetryAux op defaultRet maxRetries fuel (k + 1)

/-- `with_graceful_retry(config, default_return)` applied to an
operation: never raises; returns the first success, or the default after
exhaustion or on a non-retryable error. -/
def with_graceful_retry (maxRetries : Nat) (defaultRet : α)
    (op : Nat → AttemptResult α) : α × Nat :=
  gracefulRetryAux op defaultRet maxRetries (maxRetries + 1) 0

/-- Reflection count of the `j`-th paragraph (observable of `RState`
used by the reflection-bound statements). -/
def paraCounts (st : RState) (j : Nat) : Option Nat :=
  (st.paragraphs[j]?).map (fun p => p.research.reflection_count)

/-! # Theorems -/

/-! ## C10 — `fix_json_string` soundness -/

/-- C10: `fix_json_string` returns `None` or a string that parses as
JSON: every returned string parses (a repaired string is returned only
after it has been verified to parse), and an input that already parses
is returned unchanged. -/
theorem fix_json_string_sound :
    (∀ s t : String, fix_json_string s = some t → (loads t).isSome) ∧
    (∀ s : String, (loads s).isSome → fix_json_string s = some s) := by
  constructor
  · intro s t h
    unfold fix_json_string at h
    cases hs : loads s with
    | some v =>
      rw [hs] at h
      simp only [Option.some.injEq] at h
      subst h
      rw [hs]
      rfl
    | none =>
      rw [hs] at h
      cases hf : loads (String.mk (fixJsonAux false false s.data)) with
      | some v =>
        rw [hf] at h
        simp only [Option.some.injEq] at h
        subst h
        rw [hf]
        rfl
      | none =>
        rw [hf] at h
        cases h
  · intro s hl
    unfold fix_json_string
    cases hs : loads s with
    | some v => rfl
    | none => rw [hs] at hl; cases hl

/-- Witness for C10 at concrete inputs: a malformed object (interior
unescaped quote) is repaired to a parsing string, and a well-formed
object is returned unchanged. -/
theorem fix_json_string_sound_witness :
    (loads "\x7b\"a\": \"b\\\"c\"\x7d").isSome = true ∧
    fix_json_string "\x7b\x7d" = some "\x7b\x7d" := by
  constructor
  · exact fix_json_string_sound.1 "\x7b\"a\": \"b\"c\"\x7d" "\x7b\"a\": \"b\\\"c\"\x7d" (by rfl)
  · exact fix_json_string_sound.2 "\x7b\x7d" (by rfl)

/-! ## C9 — `with_graceful_retry` -/

/-- Skip a run of retryable attempts: while every attempt in `[k, k+n)`
is retryable and `k + n ≤ maxRetries`, the loop advances without
producing a result. -/
theorem gracefulRetryAux_skip (op : Nat → AttemptResult α) (d : α) (maxR : Nat) :
    ∀ (n fuel k : Nat), (∀ j, k ≤ j → j < k + n → op j = .retryableErr) →
      k + n ≤ maxR →
      gracefulRetryAux op d maxR (fuel + n) k = gracefulRetryAux op d maxR fuel (k + n) := by
  intro n
  induction n with
  | zero => intro fuel k _ _; rfl
  | succ m ih =>
    intro fuel k hr hle
    have hk : op k = .retryableErr := hr k le_rfl (by omega)
    have hkm : k ≠ maxR := by omega
    have hfm : fuel + (m + 1) = (fuel + m) + 1 := by omega
    have step : ∀ (f j : Nat), gracefulRetryAux op d maxR (f + 1) j =
        (match op j with
          | .success a => (a, j + 1)
          | .fatalErr => (d, j + 1)
          | .retryableErr =>
            if j = maxR then (d, j + 1) else gracefulRetryAux op d maxR f (j + 1)) :=
      fun _ _ => rfl
    rw [hfm, step]
    simp only [hk, if_neg hkm]
    rw [ih fuel (k + 1) (fun j h1 h2 => hr j (by omega) (by omega)) (by omega)]
    have hx : k + 1 + m = k + (m + 1) := by omega
    rw [hx]

/-- C9: the graceful retry envelope never propagates an error (it is a
total function into its result type); when every attempt fails with a
retryable error it returns the caller-supplied default after exactly
`max_retries + 1` attempts; a non-retryable (fatal) error, with every
earlier attempt retryable, yields the default immediately with no further
attempt; and a first successful attempt returns that attempt's result. -/
theorem with_graceful_retry_spec :
    (∀ (maxR : Nat) (d : α) (op : Nat → AttemptResult α),
      (∀ k, op k = .retryableErr) → with_graceful_retry maxR d op = (d, maxR + 1)) ∧
    (∀ (maxR : Nat) (d : α) (op : Nat → AttemptResult α) (k : Nat),
      k ≤ maxR → (∀ j, j < k → op j = .retryableErr) → op k = .fatalErr →
      with_graceful_retry maxR d op = (d, k + 1)) ∧
    (∀ (maxR : Nat) (d : α) (op : Nat → AttemptResult α) (k : Nat) (a : α),
      k ≤ maxR → (∀ j, j < k → op j = .retryableErr) → op k = .success a →
      with_graceful_retry maxR d op = (a, k + 1)) := by
  refine ⟨?_, ?_, ?_⟩
  · intro maxR d op hall
    unfold with_graceful_retry
    calc gracefulRetryAux op d maxR (maxR + 1) 0
        = gracefulRetryAux op d maxR (1 + maxR) 0 := by rw [Nat.add_comm]
      _ = gracefulRetryAux op d maxR 1 (0 + maxR) :=
          gracefulRetryAux_skip op d maxR maxR 1 0 (fun j _ _ => hall j) (by omega)
      _ = gracefulRetryAux op d maxR 1 maxR := by rw [Nat.zero_add]
      _ = (d, maxR + 1) := by unfold gracefulRetryAux; rw [hall maxR]; simp
  · intro maxR d op k hk hpre hfat
    unfold with_graceful_retry
    calc gracefulRetryAux op d maxR (maxR + 1) 0
        = gracefulRetryAux op d maxR ((maxR + 1 - k) + k) 0 := by
          congr 1
          omega
      _ = gracefulRetryAux op d maxR (maxR + 1 - k) (0 + k) :=
          gracefulRetryAux_skip op d maxR k (maxR + 1 - k) 0
            (fun j _ h2 => hpre j (by omega)) (by omega)
      _ = gracefulRetryAux op d maxR ((maxR - k) + 1) k := by
          rw [Nat.zero_add]
          congr 1
          omega
      _ = (d, k + 1) := by unfold gracefulRetryAux; rw [hfat]
  · intro maxR d op k a hk hpre hsucc
    unfold with_graceful_retry
    calc gracefulRetryAux op d maxR (maxR + 1) 0
        = gracefulRetryAux op d maxR ((maxR + 1 - k) + k) 0 := by
          congr 1
          omega
      _ = gracefulRetryAux op d maxR (maxR + 1 - k) (0 + k) :=
          gracefulRetryAux_skip op d maxR k (maxR + 1 - k) 0
            (fun j _ h2 => hpre j (by omega)) (by omega)
      _ = gracefulRetryAux op d maxR ((maxR - k) + 1) k := by
          rw [Nat.zero_add]
          congr 1
          omega
      _ = (a, k + 1) := by unfold gracefulRetryAux; rw [hsucc]

/-- Witness for C9 at concrete operations: always-retryable exhaustion
returns the default after 3 attempts; a first-attempt fatal error returns
the default after 1 attempt; success on the second attempt returns its
value. -/
theorem with_graceful_retry_spec_witness :
    with_graceful_retry 2 (0 : Nat) (fun _ => .retryableErr) = (0, 3) ∧
    with_graceful_retry 2 (0 : Nat) (fun _ => .fatalErr) = (0, 1) ∧
    with_graceful_retry 2 (0 : Nat)
      (fun k => if k = 0 then .retryableErr else .success 7) = (7, 2) := by
  refine ⟨?_, ?_, ?_⟩
  · exact with_graceful_retry_spec.1 2 0 (fun _ => .retryableErr) (fun _ => rfl)
  · exact with_graceful_retry_spec.2.1 2 0 (fun _ => .fatalErr) 0 (by omega)
      (fun j hj => by omega) rfl
  · exact with_graceful_retry_spec.2.2 2 0
      (fun k => if k = 0 then .retryableErr else .success 7) 1 7 (by omega)
      (fun j hj => by interval_cases j; rfl) (by rfl)

/-! ## C8 — single-flight system start -/

/-- Guard step on a started system. -/
theorem prepare_started {st : SystemState} (h : st.started = true) :
    prepare_system_start st = (st, false, some "System already started") := by
  unfold prepare_system_start
  simp [h]

/-- Guard step on a starting system. -/
theorem prepare_starting {st : SystemState} (h1 : st.started = false)
    (h2 : st.starting = true) :
    prepare_system_start st = (st, false, some "System is starting") := by
  unfold prepare_system_start
  simp [h1, h2]

/-- Guard step on a clean system. -/
theorem prepare_clean {st : SystemState} (h1 : st.started = false)
    (h2 : st.starting = false) :
    prepare_system_start st = ({ st with starting := true }, true, none) := by
  unfold prepare_system_start
  simp [h1, h2]

/-- Once the `starting` flag is set, a burst of start requests leaves the
state unchanged and grants nobody. -/
theorem run_start_requests_starting (n : Nat) :
    ∀ st : SystemState, st.starting = true → run_start_requests n st = (st, 0) := by
  induction n with
  | zero => intro st _; rfl
  | succ m ih =>
    intro st hs
    unfold run_start_requests
    by_cases h1 : st.started
    · rw [prepare_started h1]
      simp [ih st hs]
    · rw [prepare_starting (Bool.not_eq_true _ ▸ h1 : st.started = false) hs]
      simp [ih st hs]

/-- Once the `started` flag is set, requests are likewise all rejected. -/
theorem run_start_requests_started (n : Nat) :
    ∀ st : SystemState, st.started = true → run_start_requests n st = (st, 0) := by
  induction n with
  | zero => intro st _; rfl
  | succ m ih =>
    intro st hs
    unfold run_start_requests
    rw [prepare_started hs]
    simp [ih st hs]

/-- C8: the guard step is decided atomically under the system-state lock,
so a schedule of concurrent `SystemStart` requests is a sequence of guard
steps.  A request that observes `started` is rejected with the
"already started" message, one that observes `starting` is rejected with
the "starting" message, one that observes both flags clear is granted and
sets `starting`, and any burst of requests grants initialization to at
most one caller. -/
theorem system_start_single_flight :
    (∀ st : SystemState, st.started = true →
      prepare_system_start st = (st, false, some "System already started")) ∧
    (∀ st : SystemState, st.started = false → st.starting = true →
      prepare_system_start st = (st, false, some "System is starting")) ∧
    (∀ st : SystemState, st.started = false → st.starting = false →
      prepare_system_start st = ({ st with starting := true }, true, none)) ∧
    (∀ (n : Nat) (st : SystemState), (run_start_requests n st).2 ≤ 1) := by
  refine ⟨fun st h => prepare_started h, fun st h1 h2 => prepare_starting h1 h2,
    fun st h1 h2 => prepare_clean h1 h2, ?_⟩
  intro n st
  cases n with
  | zero => simp [run_start_requests]
  | succ m =>
    unfold run_start_requests
    by_cases h1 : st.started
    · rw [prepare_started h1]
      simp [run_start_requests_started m st h1]
    · have h1' : st.started = false := Bool.not_eq_true _ ▸ h1
      by_cases h2 : st.starting
      · rw [prepare_starting h1' h2]
        simp [run_start_requests_starting m st h2]
      · have h2' : st.starting = false := Bool.not_eq_true _ ▸ h2
        rw [prepare_clean h1' h2']
        simp [run_start_requests_starting m { st with starting := true } rfl]

/-- Witness for C8 at concrete states: rejection messages on a started /
starting system, the grant from a clean state, and a burst of three
requests from a clean state granting at most one caller. -/
theorem system_start_single_flight_witness :
    prepare_system_start ⟨true, false⟩ = (⟨true, false⟩, false, some "System already started") ∧
    prepare_system_start ⟨false, true⟩ = (⟨false, true⟩, false, some "System is starting") ∧
    prepare_system_start ⟨false, false⟩ = (⟨false, true⟩, true, none) ∧
    (run_start_requests 3 ⟨false, false⟩).2 ≤ 1 := by
  refine ⟨?_, ?_, ?_, ?_⟩
  · exact system_start_single_flight.1 ⟨true, false⟩ rfl
  · exact system_start_single_flight.2.1 ⟨false, true⟩ rfl rfl
  · exact system_start_single_flight.2.2.1 ⟨false, false⟩ rfl rfl
  · exact system_start_single_flight.2.2.2 3 ⟨false, false⟩

/-! ## C3 — readiness check -/

/-- C3: `check_input_files` reports `ready = true` iff each of the three
engines' current `.md` count strictly exceeds its baseline and the forum
log exists; a non-existent directory counts as `0` files and forces
`ready = false`. -/
theorem check_input_files_ready_iff
    (baseline : String → Nat) (ins med qry : Option (List String)) (forum : Bool) :
    (check_input_files_ready baseline ins med qry forum = true ↔
      (baseline "insight" < countMd ins ∧ baseline "media" < countMd med ∧
       baseline "query" < countMd qry ∧ forum = true)) ∧
    (ins = none ∨ med = none ∨ qry = none →
      check_input_files_ready baseline ins med qry forum = false) := by
  have hone : ∀ (e : String) (d : Option (List String)),
      (checkOneEngine baseline e d).2.2 = true ↔ baseline e < countMd d := by
    intro e d
    cases d with
    | none =>
      simp [checkOneEngine, countMd]
    | some files =>
      simp only [checkOneEngine, countMd]
      by_cases h : baseline e < (files.filter (fun f => listEndsWith f.data ".md".data)).length
      · simp [h]
      · simp [h]
  have hexpand : check_input_files_ready baseline ins med qry forum =
      ((checkOneEngine baseline "insight" ins).2.2 &&
        ((checkOneEngine baseline "media" med).2.2 &&
          ((checkOneEngine baseline "query" qry).2.2 && true)) && forum) := rfl
  constructor
  · rw [hexpand]
    simp only [Bool.and_eq_true, and_true]
    rw [hone, hone, hone]
    constructor
    · rintro ⟨⟨h1, h2, h3⟩, h4⟩
      exact ⟨h1, h2, h3, h4⟩
    · rintro ⟨h1, h2, h3, h4⟩
      exact ⟨⟨h1, h2, h3⟩, h4⟩
  · intro h
    rw [hexpand]
    rcases h with rfl | rfl | rfl
    · simp [checkOneEngine]
    · simp [checkOneEngine]
    · simp [checkOneEngine]

/-- Witness for C3 at a concrete filesystem: baseline 1 per engine, two
`.md` files in each directory and an existing forum log give
`ready = true`; a missing media directory gives `ready = false`. -/
theorem check_input_files_ready_iff_witness :
    check_input_files_ready (fun _ => 1) (some ["a.md", "b.md"])
      (some ["c.md", "d.md"]) (some ["e.md", "f.md"]) true = true ∧
    check_input_files_ready (fun _ => 1) (some ["a.md", "b.md"])
      none (some ["e.md", "f.md"]) true = false := by
  constructor
  · exact (check_input_files_ready_iff (fun _ => 1) (some ["a.md", "b.md"])
      (some ["c.md", "d.md"]) (some ["e.md", "f.md"]) true).1.mpr
      ⟨by decide, by decide, by decide, rfl⟩
  · exact (check_input_files_ready_iff (fun _ => 1) (some ["a.md", "b.md"])
      none (some ["e.md", "f.md"]) true).2 (Or.inr (Or.inl rfl))

/-! ## C4 — truncation detection -/

/-- C4: when the current file size is below the recorded read offset, the
read offset is reset to zero — the lines returned are exactly the
(stripped, non-empty) lines of the *whole* current file content — and the
per-engine capture state (`capturing_json`, `json_buffer`,
`in_error_block`) is cleared.  The stored offset advances to the end of
the file when anything was read. -/
theorem read_new_lines_truncation (content : String) (st : EngineReadState)
    (h : content.data.length < st.position) :
    read_new_lines (some content) st =
      (stripNonEmptyLines content.data,
       { position := if 0 < content.data.length then content.data.length else st.position,
         capturing := false, json_buffer := [], in_error_block := false }) := by
  unfold read_new_lines
  simp only [if_pos h]
  by_cases hz : 0 < content.data.length
  · have hz2 : 0 < content.length := hz
    simp [hz, hz2]
  · have hempty : content.data = [] := by
      cases hd : content.data with
      | nil => rfl
      | cons c t => rw [hd] at hz; simp at hz
    simp only [if_neg hz, hempty]
    simp [stripNonEmptyLines, splitOnChar, stripChars, lstripChars, rstripChars]

/-- Witness for C4: a file of three characters read with a stale offset
of 100 yields both physical lines from the start and a cleared capture
state. -/
theorem read_new_lines_truncation_witness :
    read_new_lines (some "a\nb") ⟨100, true, ["junk"], true⟩ =
      (["a", "b"], ⟨3, false, [], false⟩) := by
  have h := read_new_lines_truncation "a\nb" ⟨100, true, ["junk"], true⟩ (by decide)
  rw [h]
  rfl

/-! ## C5 — forum-log line integrity -/

/-- Characters produced by the newline/carriage-return escaping are never
themselves raw newlines or carriage returns. -/
theorem mem_replaceChar {x : Char} {t : Char} {rep : List Char} :
    ∀ {cs : List Char}, x ∈ replaceChar t rep cs → x ∈ rep ∨ (x ∈ cs ∧ x ≠ t) := by
  intro cs
  induction cs with
  | nil => intro h; cases h
  | cons c cs ih =>
    intro h
    unfold replaceChar at h
    rw [List.mem_append] at h
    rcases h with h | h
    · by_cases hc : c = t
      · rw [if_pos hc] at h
        exact Or.inl h
      · rw [if_neg hc] at h
        rcases List.mem_singleton.mp h with rfl
        exact Or.inr ⟨List.mem_cons_self _ _, hc⟩
    · rcases ih h with h' | ⟨h1, h2⟩
      · exact Or.inl h'
      · exact Or.inr ⟨List.mem_cons_of_mem _ h1, h2⟩

/-- The escaped body contains no raw `'\n'` or `'\r'`. -/
theorem contentOneLine_no_newline (content : String) :
    ∀ x ∈ contentOneLine content, x ≠ '\n' ∧ x ≠ '\r' := by
  intro x hx
  unfold contentOneLine at hx
  rcases mem_replaceChar hx with h | ⟨h1, h2⟩
  · have hx2 : x = '\\' ∨ x = 'r' := by simpa using h
    rcases hx2 with rfl | rfl
    · exact ⟨by decide, by decide⟩
    · exact ⟨by decide, by decide⟩
  · rcases mem_replaceChar h1 with h | ⟨_, h4⟩
    · have hx2 : x = '\\' ∨ x = 'n' := by simpa using h
      rcases hx2 with rfl | rfl
      · exact ⟨by decide, by decide⟩
      · exact ⟨by decide, by decide⟩
    · exact ⟨h4, h2⟩

/-- A body free of raw newlines, terminated by one `'\n'`, passes the
body part of the grammar checker. -/
theorem checkForumBody_append {cs : List Char}
    (h : ∀ x ∈ cs, x ≠ '\n' ∧ x ≠ '\r') :
    checkForumBody (cs ++ ['\n']) = true := by
  have step : ∀ (a b : Char) (bs : List Char),
      checkForumBody (a :: b :: bs) = (a ≠ '\n' && a ≠ '\r' && checkForumBody (b :: bs)) :=
    fun _ _ _ => rfl
  have base : checkForumBody ['\n'] = true := rfl
  induction cs with
  | nil => exact base
  | cons c t ih =>
    have hc := h c (List.mem_cons_self _ _)
    have ht := ih (fun x hx => h x (List.mem_cons_of_mem _ hx))
    show checkForumBody (c :: (t ++ ['\n'])) = true
    cases t with
    | nil =>
      show checkForumBody (c :: '\n' :: []) = true
      rw [step]
      simp [hc.1, hc.2, base]
    | cons d ds =>
      show checkForumBody (c :: d :: (ds ++ ['\n'])) = true
      rw [step]
      rw [List.cons_append] at ht
      simp [hc.1, hc.2, ht]

/-- An all-uppercase source tag followed by `"] "` and a valid body passes
the source part of the grammar checker (the flag records that at least
one tag character has been seen). -/
theorem checkForumSource_append {src : List Char} {body : List Char}
    (hu : ∀ c ∈ src, c.isUpper = true) (hb : checkForumBody body = true) :
    ∀ seen1 : Bool, (src ≠ [] ∨ seen1 = true) →
      checkForumSource seen1 (src ++ ']' :: ' ' :: body) = true := by
  induction src with
  | nil =>
    intro seen1 hs
    rcases hs with hs | hs
    · exact absurd rfl hs
    · subst hs
      show checkForumSource true (']' :: ' ' :: body) = true
      unfold checkForumSource
      simp [hb]
  | cons c cs ih =>
    intro seen1 _
    show checkForumSource seen1 (c :: (cs ++ ']' :: ' ' :: body)) = true
    have hc : c.isUpper = true := hu c (List.mem_cons_self _ _)
    have hcne : c ≠ ']' := by
      intro hceq
      rw [hceq] at hc
      exact absurd hc (by decide)
    unfold checkForumSource
    rw [if_neg hcne, hc]
    simp only [Bool.true_and]
    exact ih (fun x hx => hu x (List.mem_cons_of_mem _ hx)) true (Or.inr rfl)

/-- A two-digit zero-padded field consists of decimal digits. -/
theorem digitChar_isDigit {d : Nat} (hd : d < 10) : (digitChar d).isDigit = true := by
  interval_cases d <;> decide

/-- C5: a line written by `write_to_forum_log` with a source tag matches
`^\[\d{2}:\d{2}:\d{2}\] \[[A-Z]+\] <body>$`, where the body contains no
raw newline or carriage return (all `'\n'`/`'\r'` of the content are
escaped to the two-character sequences `\n` / `\r`), and the line ends
with exactly one terminating newline — it occupies one physical line. -/
theorem write_to_forum_log_line_grammar (h m s : Nat) (content : String) (src : String)
    (hh : h < 24) (hm : m < 60) (hs : s < 60)
    (hsrc_ne : src.data ≠ []) (hsrc_up : ∀ c ∈ src.data, c.isUpper = true) :
    matchesForumGrammar (write_to_forum_log_line h m s content (some src)) = true := by
  have hkey : write_to_forum_log_line h m s content (some src) =
      '[' :: digitChar (h / 10) :: digitChar (h % 10) :: ':' :: digitChar (m / 10) ::
        digitChar (m % 10) :: ':' :: digitChar (s / 10) :: digitChar (s % 10) :: ']' :: ' ' ::
        '[' :: (src.data ++ (']' :: ' ' :: (contentOneLine content ++ ['\n']))) := by
    simp [write_to_forum_log_line, timestampHMS, fmt2, List.append_assoc]
  have hred : ∀ (a b c d e f : Char) (rest : List Char),
      matchesForumGrammar ('[' :: a :: b :: ':' :: c :: d :: ':' :: e :: f :: ']' :: ' ' ::
        '[' :: rest) =
      (a.isDigit && b.isDigit && c.isDigit && d.isDigit && e.isDigit && f.isDigit &&
        checkForumSource false rest) :=
    fun _ _ _ _ _ _ _ => rfl
  rw [hkey, hred,
      digitChar_isDigit (by omega : h / 10 < 10), digitChar_isDigit (by omega : h % 10 < 10),
      digitChar_isDigit (by omega : m / 10 < 10), digitChar_isDigit (by omega : m % 10 < 10),
      digitChar_isDigit (by omega : s / 10 < 10), digitChar_isDigit (by omega : s % 10 < 10)]
  simp only [Bool.true_and]
  exact checkForumSource_append hsrc_up
    (checkForumBody_append (contentOneLine_no_newline content)) false (Or.inl hsrc_ne)

/-- Witness for C5: a HOST line at 12:03:04 whose content embeds a raw
newline and carriage return still matches the one-line grammar. -/
theorem write_to_forum_log_line_grammar_witness :
    matchesForumGrammar (write_to_forum_log_line 12 3 4 "a\nb\rc" (some "HOST")) = true :=
  write_to_forum_log_line_grammar 12 3 4 "a\nb\rc" "HOST"
    (by decide) (by decide) (by decide) (by decide) (by decide)

/-! ## C1 — ERROR-block filtering -/

/-- A line whose head is not `|` cannot match the level pattern at
position 0. -/
theorem matchLevelAt_ne_pipe {c : Char} {t : List Char} (h : c ≠ '|') :
    matchLevelAt (c :: t) = none := by
  unfold matchLevelAt
  split
  · next heq =>
    injection heq with h1 _
    exact absurd h1 h
  · rfl

/-- A line of whitespace characters has no detectable level. -/
theorem getLogLevelList_all_space :
    ∀ cs : List Char, (∀ c ∈ cs, isPySpace c = true) → getLogLevelList cs = none := by
  intro cs
  induction cs with
  | nil => intro _; rfl
  | cons c t ih =>
    intro h
    have hc := h c (List.mem_cons_self _ _)
    have hcp : c ≠ '|' := by
      intro hceq
      rw [hceq] at hc
      exact absurd hc (by decide)
    unfold getLogLevelList
    rw [matchLevelAt_ne_pipe hcp]
    exact ih (fun x hx => h x (List.mem_cons_of_mem _ hx))

/-- A line that strips to the empty string is all whitespace. -/
theorem all_space_of_strip_empty {cs : List Char} (h : stripChars cs = []) :
    ∀ c ∈ cs, isPySpace c = true := by
  unfold stripChars rstripChars lstripChars at h
  have h2 : (cs.dropWhile isPySpace).reverse.dropWhile isPySpace = [] := by
    have := congrArg List.reverse h
    simpa using this
  have h3 : ∀ c ∈ (cs.dropWhile isPySpace).reverse, isPySpace c = true :=
    List.dropWhile_eq_nil_iff.mp h2
  have h4 : ∀ c ∈ cs.dropWhile isPySpace, isPySpace c = true := by
    intro c hc
    exact h3 c (List.mem_reverse.mpr hc)
  have hsplit : cs.takeWhile isPySpace ++ cs.dropWhile isPySpace = cs :=
    List.takeWhile_append_dropWhile isPySpace cs
  intro c hc
  rw [← hsplit] at hc
  rcases List.mem_append.mp hc with hmem | hmem
  · exact List.mem_takeWhile_imp hmem
  · exact h4 c hmem

/-- A line with a detected level does not strip to the empty string. -/
theorem pyStrip_ne_empty_of_level {l : String} {w : String}
    (h : get_log_level l = some w) : pyStrip l ≠ "" := by
  intro hcontra
  have hchars : stripChars l.data = [] := congrArg String.data hcontra
  have := getLogLevelList_all_space l.data (all_space_of_strip_empty hchars)
  unfold get_log_level at h
  rw [this] at h
  cases h

/-- `processOneLine` on a blank line is a no-op. -/
theorem processOneLine_blank {st : TailState} {cap : List String} {l : String}
    (h : pyStrip l = "") : processOneLine st cap l = .ok (st, cap) := by
  unfold processOneLine
  rw [if_pos h]

/-- `processOneLine` on an ERROR-level line: enter the error block,
dropping an in-flight capture. -/
theorem processOneLine_error {st : TailState} {cap : List String} {l : String}
    (hne : pyStrip l ≠ "") (herr : get_log_level l = some "ERROR") :
    processOneLine st cap l =
      .ok ({ st with
              in_error_block := true,
              capturing := false,
              json_buffer := if st.capturing then [] else st.json_buffer }, cap) := by
  unfold processOneLine
  rw [if_neg hne, if_pos herr]

/-- `processOneLine` on a non-ERROR line delegates to `processAfterLevel`
after the INFO bookkeeping. -/
theorem processOneLine_other {st : TailState} {cap : List String} {l : String}
    (hne : pyStrip l ≠ "") (herr : get_log_level l ≠ some "ERROR") :
    processOneLine st cap l =
      processAfterLevel
        (if get_log_level l = some "INFO" then { st with in_error_block := false } else st)
        cap l := by
  unfold processOneLine
  rw [if_neg hne, if_neg herr]

/-- Inside the error block every line is skipped. -/
theorem processAfterLevel_in_error {st : TailState} {cap : List String} {l : String}
    (h : st.in_error_block = true) :
    processAfterLevel st cap l =
      .ok ({ st with
              capturing := false,
              json_buffer := if st.capturing then [] else st.json_buffer }, cap) := by
  unfold processAfterLevel
  rw [if_pos h]

/-- From an error-block state, any sequence of lines none of which has
level INFO is skipped entirely: no content is emitted and the state stays
in the error block with an empty capture. -/
theorem processLinesAux_error_block (B : List String) :
    ∀ (mids : List String) (cap : List String),
      (∀ l ∈ mids, get_log_level l ≠ some "INFO") →
      processLinesAux mids ⟨false, B, true⟩ cap = .ok (⟨false, B, true⟩, cap) := by
  intro mids
  induction mids with
  | nil => intro cap _; rfl
  | cons l ls ih =>
    intro cap hm
    have hlvl := hm l (List.mem_cons_self _ _)
    have hstep : processOneLine ⟨false, B, true⟩ cap l = .ok (⟨false, B, true⟩, cap) := by
      by_cases hb : pyStrip l = ""
      · exact processOneLine_blank hb
      · by_cases herr : get_log_level l = some "ERROR"
        · rw [processOneLine_error hb herr]
          rfl
        · rw [processOneLine_other hb herr, if_neg hlvl,
              processAfterLevel_in_error rfl]
          rfl

    unfold processLinesAux
    rw [hstep]
    exact ih cap (fun x hx => hm x (List.mem_cons_of_mem _ hx))

/-- C1: once an ERROR-level line is encountered, the error-block flag is
set and any in-flight JSON capture buffer is discarded; every following
line whose detected level is not INFO (other levels or no detectable
level preserve the flag) is skipped, emitting no content.  In particular
a JSON object between the ERROR line and the next INFO line yields no
forum message. -/
theorem error_block_filter (st : TailState) (e : String) (mids : List String)
    (he : get_log_level e = some "ERROR")
    (hm : ∀ l ∈ mids, get_log_level l ≠ some "INFO") :
    process_lines_for_json (e :: mids) st =
      .ok (⟨false, if st.capturing then [] else st.json_buffer, true⟩, []) := by
  have hne : pyStrip e ≠ "" := pyStrip_ne_empty_of_level he
  unfold process_lines_for_json processLinesAux
  rw [processOneLine_error hne he]
  exact processLinesAux_error_block _ mids [] hm

/-- Witness for C1: an ERROR line followed by a multi-line JSON object
(no INFO line in between) emits nothing, clears the in-flight buffer and
stays in the error block. -/
theorem error_block_filter_witness :
    process_lines_for_json
      ["2024-01-01 12:00:00.120 | ERROR | e.nodes.summary_node:run:120 - JSON parsing failed: x",
       "\x7b",
       "\"paragraph_latest_state\": \"hidden\"",
       "\x7d"]
      ⟨true, ["stale"], false⟩ =
      .ok (⟨false, [], true⟩, []) := by
  have h := error_block_filter ⟨true, ["stale"], false⟩
    "2024-01-01 12:00:00.120 | ERROR | e.nodes.summary_node:run:120 - JSON parsing failed: x"
    ["\x7b", "\"paragraph_latest_state\": \"hidden\"", "\x7d"]
    (by decide) (by decide)
  exact h

/-! ## C6 — moderator threshold -/

/-- C6: with the host available and no synthesis in flight, a buffer
holding at least 5 utterances triggers exactly one synthesis on the first
5 buffered utterances; a successful synthesis removes exactly those 5 and
appends the reply to the forum log under source HOST, while a failed one
leaves the buffer unchanged.  Consequently emitting 12 agent utterances
with an always-succeeding host performs exactly two syntheses and leaves
2 utterances buffered. -/
theorem moderator_threshold :
    (∀ (host : List String → Option String) (st : HostMonState),
      5 ≤ st.agent_speeches_buffer.length → st.is_host_generating = false →
      ((∀ sp, host (st.agent_speeches_buffer.take 5) = some sp →
          trigger_host_speech true host st =
            { st with
                is_host_generating := false,
                forum := st.forum ++ [("HOST", sp)],
                agent_speeches_buffer := st.agent_speeches_buffer.drop 5,
                host_calls := st.host_calls + 1 }) ∧
        (host (st.agent_speeches_buffer.take 5) = none →
          trigger_host_speech true host st =
            { st with is_host_generating := false, host_calls := st.host_calls + 1 }))) ∧
    (∀ u1 u2 u3 u4 u5 u6 u7 u8 u9 u10 u11 u12 : String,
      ((emit_contents true (fun _ => some "synthesis") "12:00:00" "INSIGHT"
          [u1, u2, u3, u4, u5, u6, u7, u8, u9, u10, u11, u12]
          ⟨[], false, [], 0⟩).host_calls = 2 ∧
        (emit_contents true (fun _ => some "synthesis") "12:00:00" "INSIGHT"
          [u1, u2, u3, u4, u5, u6, u7, u8, u9, u10, u11, u12]
          ⟨[], false, [], 0⟩).agent_speeches_buffer.length = 2)) := by
  constructor
  · intro host st hlen hgen
    have hnotshort : ¬ (st.agent_speeches_buffer.take 5).length < 5 := by
      rw [List.length_take]
      omega
    constructor
    · intro sp hsp
      unfold trigger_host_speech
      rw [hgen]
      simp only [Bool.not_true, Bool.false_or, Bool.or_false, Bool.not_false, if_false,
        Bool.false_eq_true]
      rw [if_neg hnotshort, hsp]
    · intro hsp
      unfold trigger_host_speech
      rw [hgen]
      simp only [Bool.not_true, Bool.false_or, Bool.or_false, Bool.not_false, if_false,
        Bool.false_eq_true]
      rw [if_neg hnotshort, hsp]
  · intro u1 u2 u3 u4 u5 u6 u7 u8 u9 u10 u11 u12
    constructor
    · simp [emit_contents, trigger_host_speech, host_speech_threshold]
    · simp [emit_contents, trigger_host_speech, host_speech_threshold]

/-- Witness for C6: from a buffer of six utterances with an idle host
loop, the trigger synthesizes the first five and leaves the sixth; the
12-utterance run yields two syntheses with two utterances left. -/
theorem moderator_threshold_witness :
    trigger_host_speech true (fun _ => some "reply")
        ⟨["a", "b", "c", "d", "e", "f"], false, [], 0⟩ =
      ⟨["f"], false, [("HOST", "reply")], 1⟩ ∧
    (emit_contents true (fun _ => some "synthesis") "12:00:00" "INSIGHT"
        ["u1", "u2", "u3", "u4", "u5", "u6", "u7", "u8", "u9", "u10", "u11", "u12"]
        ⟨[], false, [], 0⟩).host_calls = 2 := by
  constructor
  · have h := (moderator_threshold.1 (fun _ => some "reply")
      ⟨["a", "b", "c", "d", "e", "f"], false, [], 0⟩ (by decide) rfl).1 "reply" rfl
    rw [h]
    rfl
  · exact (moderator_threshold.2 "u1" "u2" "u3" "u4" "u5" "u6" "u7" "u8" "u9" "u10"
      "u11" "u12").1

/-! ## C7 — reflection-loop bound -/

/-- `ReflectionSummaryNode.mutate_state` increments exactly the target
paragraph's reflection counter and preserves the paragraph count. -/
theorem mutate_state_counts {s : String} {st : RState} {i : Nat} {st' : RState}
    (h : ReflectionSummaryNode.mutate_state s st i = some st') :
    st'.paragraphs.length = st.paragraphs.length ∧
    ∀ j, paraCounts st' j =
      if i = j then (paraCounts st j).map (· + 1) else paraCounts st j := by
  unfold ReflectionSummaryNode.mutate_state at h
  by_cases hi : i < st.paragraphs.length
  · rw [if_pos hi] at h
    injection h with h'
    subst h'
    refine ⟨List.length_modify .., ?_⟩
    intro j
    unfold paraCounts
    simp only [List.getElem?_modify]
    cases hj : st.paragraphs[j]? with
    | none => by_cases hij : i = j <;> simp [hij]
    | some p =>
      by_cases hij : i = j <;>
        simp [hij, Research.increment_reflection, Option.map]
  · rw [if_neg hi] at h
    cases h

/-- `reflection_iteration` behaves like the reflection-summary mutation
on the counters (the search-history append does not touch them). -/
theorem reflection_iteration_counts {q : String} {n : Nat} {sm : String}
    {st : RState} {i : Nat} {st' : RState}
    (h : reflection_iteration q n sm st i = some st') :
    st'.paragraphs.length = st.paragraphs.length ∧
    ∀ j, paraCounts st' j =
      if i = j then (paraCounts st j).map (· + 1) else paraCounts st j := by
  unfold reflection_iteration ReflectionSummaryNode.mutate_state at h
  by_cases hi : i < st.paragraphs.length
  · rw [if_pos hi] at h
    simp only [List.length_modify] at h
    rw [if_pos hi] at h
    injection h with h'
    subst h'
    constructor
    · simp only [List.length_modify]
    · intro j
      unfold paraCounts
      simp only [List.getElem?_modify]
      cases hj : st.paragraphs[j]? with
      | none => by_cases hij : i = j <;> simp [hij]
      | some p =>
        by_cases hij : i = j <;>
          simp [hij, Research.increment_reflection, Research.add_search_results, Option.map]
  · rw [if_neg hi] at h
    cases h

/-- The reflection loop runs to completion on a valid index, adds exactly
`maxR` to that paragraph's reflection counter and leaves every other
paragraph's counter unchanged. -/
theorem reflection_loop_counts (oracle : Nat → String × Nat × String) :
    ∀ (maxR : Nat) (st : RState) (i : Nat), i < st.paragraphs.length →
      ∃ st', reflection_loop oracle maxR st i = some st' ∧
        st'.paragraphs.length = st.paragraphs.length ∧
        ∀ j, paraCounts st' j =
          if i = j then (paraCounts st j).map (· + maxR) else paraCounts st j := by
  intro maxR
  induction maxR with
  | zero =>
    intro st i hi
    refine ⟨st, rfl, rfl, ?_⟩
    intro j
    by_cases hij : i = j
    · rw [if_pos hij]
      cases h : paraCounts st j <;> simp
    · rw [if_neg hij]
  | succ m ih =>
    intro st i hi
    obtain ⟨stm, hm, hmlen, hmcnt⟩ := ih st i hi
    have hloop : reflection_loop oracle (m + 1) st i =
        (reflection_loop oracle m st i).bind (fun s =>
          let (q, n, sm) := oracle m
          reflection_iteration q n sm s i) := by
      unfold reflection_loop
      rw [List.range_succ, List.foldl_append]
      rfl
    rw [hloop, hm]
    have hivalid : i < stm.paragraphs.length := by rw [hmlen]; exact hi
    rcases horc : oracle m with ⟨q, n, sm⟩
    have hstep : ∃ st', reflection_iteration q n sm stm i = some st' := by
      unfold reflection_iteration
      rw [if_pos hivalid]
      unfold ReflectionSummaryNode.mutate_state
      rw [if_pos (by simpa using hivalid)]
      exact ⟨_, rfl⟩
    obtain ⟨st', hst'⟩ := hstep
    obtain ⟨hlen', hcnt'⟩ := reflection_iteration_counts hst'
    refine ⟨st', by simp [horc, hst'], by rw [hlen', hmlen], ?_⟩
    intro j
    rw [hcnt' j, hmcnt j]
    by_cases hij : i = j
    · simp only [if_pos hij]
      cases hpc : paraCounts st j with
      | none => simp
      | some k => simp [Nat.add_assoc]
    · simp only [if_neg hij]

/-- `FirstSummaryNode.mutate_state` succeeds on a valid index and leaves
every reflection counter unchanged. -/
theorem first_summary_counts {sm : String} {st : RState} {i : Nat}
    (hi : i < st.paragraphs.length) :
    ∃ st', FirstSummaryNode.mutate_state sm st i = some st' ∧
      st'.paragraphs.length = st.paragraphs.length ∧
      ∀ j, paraCounts st' j = paraCounts st j := by
  unfold FirstSummaryNode.mutate_state
  rw [if_pos hi]
  refine ⟨_, rfl, List.length_modify .., ?_⟩
  intro j
  unfold paraCounts
  simp only [List.getElem?_modify]
  cases hj : st.paragraphs[j]? with
  | none => by_cases hij : i = j <;> simp [hij]
  | some p => by_cases hij : i = j <;> simp [hij, Option.map]

/-- One `process_paragraph` step: the target paragraph's counter gains
exactly `maxR`, the others are untouched. -/
theorem process_paragraph_counts (fs : String) (oracle : Nat → String × Nat × String)
    (maxR : Nat) (st : RState) (i : Nat) (hi : i < st.paragraphs.length) :
    ∃ st', process_paragraph fs oracle maxR st i = some st' ∧
      st'.paragraphs.length = st.paragraphs.length ∧
      ∀ j, paraCounts st' j =
        if i = j then (paraCounts st j).map (· + maxR) else paraCounts st j := by
  obtain ⟨st1, h1, hlen1, hcnt1⟩ := @first_summary_counts fs st i hi
  obtain ⟨st', h2, hlen2, hcnt2⟩ := reflection_loop_counts oracle maxR st1 i
    (by rw [hlen1]; exact hi)
  refine ⟨st', ?_, by rw [hlen2, hlen1], ?_⟩
  · unfold process_paragraph
    rw [h1]
    exact h2
  · intro j
    rw [hcnt2 j, hcnt1 j]

/-- C7: for every completed run of the research state machine, each
paragraph's reflection loop executes its reflection / reflection-summary
pair exactly `MAX_REFLECTIONS` times, each iteration incrementing the
paragraph's reflection counter once, so at the end every paragraph's
`research.reflection_count` equals `MAX_REFLECTIONS` — in particular it
is at most `MAX_REFLECTIONS`. -/
theorem run_research_reflection_bound (titles : List (String × String))
    (firstSummaries : Nat → String) (oracle : Nat → Nat → String × Nat × String)
    (maxR : Nat) (st' : RState)
    (h : run_research titles firstSummaries oracle maxR = some st') :
    ∀ p ∈ st'.paragraphs,
      p.research.reflection_count = maxR ∧ p.research.reflection_count ≤ maxR := by
  classical
  set n := titles.length with hn
  set st0 : RState :=
    { paragraphs := titles.map (fun tc => { title := tc.1, content := tc.2 }) } with hst0
  have hlen0 : st0.paragraphs.length = n := by simp [hst0, hn]
  have hcnt0 : ∀ j, j < n → paraCounts st0 j = some 0 := by
    intro j hj
    unfold paraCounts
    rw [hst0]
    simp only
    rw [List.getElem?_map]
    rw [List.getElem?_eq_getElem (by simpa [hn] using hj)]
    rfl
  -- invariant over the prefix fold of `run_research`
  have key : ∀ k, k ≤ n →
      ∃ stk, (List.range k).foldl
          (fun acc i => acc.bind
            (fun s => process_paragraph (firstSummaries i) (oracle i) maxR s i))
          (some st0) = some stk ∧
        stk.paragraphs.length = n ∧
        (∀ j, j < k → paraCounts stk j = some maxR) ∧
        (∀ j, k ≤ j → j < n → paraCounts stk j = some 0) := by
    intro k
    induction k with
    | zero =>
      intro _
      exact ⟨st0, rfl, hlen0, fun j hj => absurd hj (by omega), fun j _ hj => hcnt0 j hj⟩
    | succ m ih =>
      intro hk
      obtain ⟨stm, hfold, hlen, hdone, htodo⟩ := ih (by omega)
      have hmvalid : m < stm.paragraphs.length := by rw [hlen]; omega
      obtain ⟨st1, hstep, hlen1, hcnt1⟩ :=
        process_paragraph_counts (firstSummaries m) (oracle m) maxR stm m hmvalid
      refine ⟨st1, ?_, by rw [hlen1, hlen], ?_, ?_⟩
      · rw [List.range_succ, List.foldl_append, hfold]
        simpa using hstep
      · intro j hj
        rw [hcnt1 j]
        by_cases hmj : m = j
        · rw [if_pos hmj, ← hmj, htodo m le_rfl (by omega)]
          simp
        · rw [if_neg hmj]
          exact hdone j (by omega)
      · intro j hj1 hj2
        rw [hcnt1 j, if_neg (by omega), htodo j (by omega) hj2]
  obtain ⟨stn, hfold, hlenn, hdone, _⟩ := key n le_rfl
  have hst' : st' = stn := by
    unfold run_research at h
    rw [← hst0] at h
    simp only [hlen0] at h
    rw [hfold] at h
    injection h with h
    exact h.symm
  subst hst'
  intro p hp
  obtain ⟨j, hjlt, hjp⟩ := List.getElem_of_mem hp
  have hjn : j < n := by rw [← hlenn]; exact hjlt
  have := hdone j hjn
  unfold paraCounts at this
  rw [List.getElem?_eq_getElem hjlt, hjp] at this
  simp only [Option.map_some', Option.some.injEq] at this
  exact ⟨this, le_of_eq this⟩

/-! ## C2 — multi-line JSON reassembly -/

/-- A target line that starts a multi-line JSON capture (the line itself
does not end with `}`): the capture state is entered with the line as the
sole buffer element. -/
theorem processAfterLevel_start_capture {cap : List String} {l : String}
    (htgt : is_target_log_line l = true) (hjs : is_json_start_line l = true)
    (hnotend : listEndsWith (stripChars l.data) ['}'] = false) :
    processAfterLevel ⟨false, [], false⟩ cap l = .ok (⟨true, [l], false⟩, cap) := by
  unfold processAfterLevel
  rw [if_neg (by simp)]
  rw [if_pos (by simp [htgt, hjs])]
  rw [if_neg (by simp [hnotend])]

/-- A buffered continuation line: a line in the capture state that is not
independently captured (not a target JSON start, not target valuable) and
is not an end marker is appended to the JSON buffer. -/
theorem processAfterLevel_continuation {buf cap : List String} {l : String}
    (hnt : ¬(is_target_log_line l = true ∧
      (is_json_start_line l = true ∨ is_valuable_content l = true)))
    (hle1 : cleanedEndCheck l ≠ "\x7d") (hle2 : cleanedEndCheck l ≠ "] \x7d") :
    processAfterLevel ⟨true, buf, false⟩ cap l = .ok (⟨true, buf ++ [l], false⟩, cap) := by
  have h1 : (is_target_log_line l && is_json_start_line l) = false := by
    cases htt : is_target_log_line l with
    | false => simp
    | true =>
      cases hjj : is_json_start_line l with
      | false => simp
      | true => exact absurd ⟨htt, Or.inl hjj⟩ hnt
  have h2 : (is_target_log_line l && is_valuable_content l) = false := by
    cases htt : is_target_log_line l with
    | false => simp
    | true =>
      cases hvv : is_valuable_content l with
      | false => simp
      | true => exact absurd ⟨htt, Or.inr hvv⟩ hnt
  unfold processAfterLevel
  rw [if_neg (by simp)]
  rw [if_neg (by simp [h1])]
  rw [if_neg (by simp [h2])]
  rw [if_pos (by simp : (⟨true, buf, false⟩ : TailState).capturing = true)]
  rw [if_neg (not_or.mpr ⟨hle1, hle2⟩)]

/-- The end-marker line in the capture state: the buffered lines plus the
end line are reassembled and parsed; the result (or crash, or silence)
follows `extract_json_content`. -/
theorem processAfterLevel_end {buf cap : List String} {l : String}
    (hnt : ¬(is_target_log_line l = true ∧
      (is_json_start_line l = true ∨ is_valuable_content l = true)))
    (hend : cleanedEndCheck l = "\x7d" ∨ cleanedEndCheck l = "] \x7d") :
    processAfterLevel ⟨true, buf, false⟩ cap l =
      match extract_json_content (buf ++ [l]) with
      | some (.str s) => .ok (⟨false, [], false⟩, cap ++ [_clean_content_tags s])
      | some _ => .error ⟨true, buf ++ [l], false⟩
      | none => .ok (⟨false, [], false⟩, cap) := by
  have h1 : (is_target_log_line l && is_json_start_line l) = false := by
    cases htt : is_target_log_line l with
    | false => simp
    | true =>
      cases hjj : is_json_start_line l with
      | false => simp
      | true => exact absurd ⟨htt, Or.inl hjj⟩ hnt
  have h2 : (is_target_log_line l && is_valuable_content l) = false := by
    cases htt : is_target_log_line l with
    | false => simp
    | true =>
      cases hvv : is_valuable_content l with
      | false => simp
      | true => exact absurd ⟨htt, Or.inr hvv⟩ hnt
  unfold processAfterLevel
  rw [if_neg (by simp)]
  rw [if_neg (by simp [h1])]
  rw [if_neg (by simp [h2])]
  rw [if_pos (by simp : (⟨true, buf, false⟩ : TailState).capturing = true)]
  rw [if_pos hend]

/-- The INFO bookkeeping is the identity when the error block is already
clear. -/
theorem info_update_id (st : TailState) (hne : st.in_error_block = false) (l : String) :
    (if get_log_level l = some "INFO" then { st with in_error_block := false } else st) = st := by
  split
  · cases st
    cases hne
    rfl
  · rfl

/-- Consuming a run of buffered continuation lines: the capture state
survives with the lines appended in order. -/
theorem processLinesAux_capture_mids :
    ∀ (mids : List String) (buf cap rest : List String),
      (∀ l ∈ mids, pyStrip l ≠ "" ∧ get_log_level l ≠ some "ERROR" ∧
        ¬(is_target_log_line l = true ∧
          (is_json_start_line l = true ∨ is_valuable_content l = true)) ∧
        cleanedEndCheck l ≠ "\x7d" ∧ cleanedEndCheck l ≠ "] \x7d") →
      processLinesAux (mids ++ rest) ⟨true, buf, false⟩ cap =
        processLinesAux rest ⟨true, buf ++ mids, false⟩ cap := by
  intro mids
  induction mids with
  | nil => intro buf cap rest _; simp
  | cons l ls ih =>
    intro buf cap rest hm
    obtain ⟨hlne, hllvl, hlnt, hle1, hle2⟩ := hm l (List.mem_cons_self _ _)
    have hstep : processOneLine ⟨true, buf, false⟩ cap l = .ok (⟨true, buf ++ [l], false⟩, cap) := by
      rw [processOneLine_other hlne hllvl, info_update_id _ rfl,
          processAfterLevel_continuation hlnt hle1 hle2]
    have hauxstep : ∀ (x : String) (xs : List String) (st : TailState) (c : List String),
        processLinesAux (x :: xs) st c =
          match processOneLine st c x with
          | .ok (st2, c2) => processLinesAux xs st2 c2
          | .error e => .error e := fun _ _ _ _ => rfl
    have hrest := ih (buf ++ [l]) cap rest (fun x hx => hm x (List.mem_cons_of_mem _ hx))
    have hassoc : (buf ++ [l]) ++ ls = buf ++ (l :: ls) := by simp
    show processLinesAux ((l :: ls) ++ rest) ⟨true, buf, false⟩ cap = _
    rw [List.cons_append, hauxstep, hstep]
    rw [hassoc] at hrest
    exact hrest

/-- C2, corrected.  The original claim is refuted by
`json_reassembly_counterexample`: a continuation line that itself carries
the summary-node logger path (as the wire contract prescribes) and at
least 30 characters of content is captured *independently* by the
valuable-content branch, so the emission produces two items.  The claim
holds with the continuation lines restricted to ones the tailer does not
capture independently: for a multi-line `Cleaned output: {` emission
whose start line is a target summary-node line (not itself ending with
`}`), whose continuation lines are non-blank, not ERROR-level, not
independently captured target lines and not end markers, and whose final
line's prefix-stripped content is exactly `}` or `] }`, the tailer
buffers the lines, reassembles and parses them (attempting repair on
failure) and emits exactly one captured content item when parsing
succeeds with a string summary; if parsing and repair both fail, nothing
is emitted. -/
theorem json_reassembly_amended
    (start endl : String) (mids : List String)
    (hs_ne : pyStrip start ≠ "")
    (hs_lvl : get_log_level start ≠ some "ERROR")
    (hs_tgt : is_target_log_line start = true)
    (hs_js : is_json_start_line start = true)
    (hs_notend : listEndsWith (stripChars start.data) ['}'] = false)
    (hm : ∀ l ∈ mids, pyStrip l ≠ "" ∧ get_log_level l ≠ some "ERROR" ∧
      ¬(is_target_log_line l = true ∧
        (is_json_start_line l = true ∨ is_valuable_content l = true)) ∧
      cleanedEndCheck l ≠ "\x7d" ∧ cleanedEndCheck l ≠ "] \x7d")
    (he_ne : pyStrip endl ≠ "")
    (he_lvl : get_log_level endl ≠ some "ERROR")
    (he_nt : ¬(is_target_log_line endl = true ∧
      (is_json_start_line endl = true ∨ is_valuable_content endl = true)))
    (he_end : cleanedEndCheck endl = "\x7d" ∨ cleanedEndCheck endl = "] \x7d")
    (hstr : ∀ v, extract_json_content (start :: (mids ++ [endl])) = some v →
      ∃ s, v = JVal.str s) :
    process_lines_for_json (start :: (mids ++ [endl])) ⟨false, [], false⟩ =
      .ok (⟨false, [], false⟩,
        match extract_json_content (start :: (mids ++ [endl])) with
        | some (.str s) => [_clean_content_tags s]
        | _ => []) := by
  have hauxstep : ∀ (x : String) (xs : List String) (st : TailState) (c : List String),
      processLinesAux (x :: xs) st c =
        match processOneLine st c x with
        | .ok (st2, c2) => processLinesAux xs st2 c2
        | .error e => .error e := fun _ _ _ _ => rfl
  have hstep0 : processOneLine ⟨false, [], false⟩ [] start =
      .ok (⟨true, [start], false⟩, []) := by
    rw [processOneLine_other hs_ne hs_lvl, info_update_id _ rfl,
        processAfterLevel_start_capture hs_tgt hs_js hs_notend]
  have hbuf : ([start] ++ mids) ++ [endl] = start :: (mids ++ [endl]) := by
    simp
  have hstependl : processOneLine ⟨true, [start] ++ mids, false⟩ [] endl =
      match extract_json_content (start :: (mids ++ [endl])) with
      | some (.str s) => .ok (⟨false, [], false⟩, [_clean_content_tags s])
      | some _ => .error ⟨true, start :: (mids ++ [endl]), false⟩
      | none => .ok (⟨false, [], false⟩, []) := by
    rw [processOneLine_other he_ne he_lvl, info_update_id _ rfl,
        processAfterLevel_end he_nt he_end, hbuf]
    cases hex0 : extract_json_content (start :: (mids ++ [endl])) with
    | none => rfl
    | some v => cases v <;> rfl
  have main : processLinesAux (mids ++ [endl]) ⟨true, [start], false⟩ [] =
      .ok (⟨false, [], false⟩,
        match extract_json_content (start :: (mids ++ [endl])) with
        | some (.str s) => [_clean_content_tags s]
        | _ => []) := by
    rw [processLinesAux_capture_mids mids [start] [] [endl] hm]
    rw [hauxstep, hstependl]
    cases hex : extract_json_content (start :: (mids ++ [endl])) with
    | none => rfl
    | some v =>
      obtain ⟨s, rfl⟩ := hstr v hex
      rfl
  unfold process_lines_for_json
  rw [hauxstep, hstep0]
  exact main

set_option maxRecDepth 40000 in
/-- Witness for the amended C2: a realistic three-line emission whose
continuation lines carry strippable loguru prefixes with a non-target
logger path reassembles to `{"paragraph_latest_state": "hello"}` and
emits exactly the one item `hello`. -/
theorem json_reassembly_amended_witness :
    process_lines_for_json
      ["2024-01-01 12:00:00.123 | INFO | InsightEngine.nodes.summary_node:run:100 - Cleaned output: \x7b",
       "2024-01-01 12:00:00.124 | INFO | worker:run:101 - \"paragraph_latest_state\": \"hello\"",
       "2024-01-01 12:00:00.125 | INFO | worker:run:102 - \x7d"]
      ⟨false, [], false⟩ =
      .ok (⟨false, [], false⟩, ["hello"]) := by
  have h := json_reassembly_amended
    "2024-01-01 12:00:00.123 | INFO | InsightEngine.nodes.summary_node:run:100 - Cleaned output: \x7b"
    "2024-01-01 12:00:00.125 | INFO | worker:run:102 - \x7d"
    ["2024-01-01 12:00:00.124 | INFO | worker:run:101 - \"paragraph_latest_state\": \"hello\""]
    (by decide) (by decide) (by decide) (by decide) (by decide)
    (by decide) (by decide) (by decide) (by decide) (Or.inl (by decide))
    (by
      intro v hv
      have h2 : (some (JVal.str "hello") : Option JVal) = some v := by
        rw [← hv]
        rfl
      injection h2 with h3
      exact ⟨"hello", h3.symm⟩)
  exact h

set_option maxRecDepth 40000 in
/-- C2, counterexample to the original claim: the start line is a target
summary-node line opening a multi-line `Cleaned output: {` emission, both
continuation lines carry strippable loguru prefixes, and the final line's
prefix-stripped content is exactly `}` — yet the tailer emits **two**
captured content items (the middle line is captured independently as
valuable target content), not exactly one. -/
theorem json_reassembly_counterexample :
    is_target_log_line
      "2024-01-01 12:00:00.123 | INFO | InsightEngine.nodes.summary_node:run:100 - Cleaned output: \x7b" = true ∧
    is_json_start_line
      "2024-01-01 12:00:00.123 | INFO | InsightEngine.nodes.summary_node:run:100 - Cleaned output: \x7b" = true ∧
    (matchLoguruAt
      "2024-01-01 12:00:00.124 | INFO | InsightEngine.nodes.summary_node:run:101 - \"updated_paragraph_latest_state\": \"alpha beta gamma delta epsilon\"".data).isSome = true ∧
    (matchLoguruAt
      "2024-01-01 12:00:00.125 | INFO | InsightEngine.nodes.summary_node:run:102 - \x7d".data).isSome = true ∧
    cleanedEndCheck
      "2024-01-01 12:00:00.125 | INFO | InsightEngine.nodes.summary_node:run:102 - \x7d" = "\x7d" ∧
    process_lines_for_json
      ["2024-01-01 12:00:00.123 | INFO | InsightEngine.nodes.summary_node:run:100 - Cleaned output: \x7b",
       "2024-01-01 12:00:00.124 | INFO | InsightEngine.nodes.summary_node:run:101 - \"updated_paragraph_latest_state\": \"alpha beta gamma delta epsilon\"",
       "2024-01-01 12:00:00.125 | INFO | InsightEngine.nodes.summary_node:run:102 - \x7d"]
      ⟨false, [], false⟩ =
      .ok (⟨false, [], false⟩,
        ["\"updated_paragraph_latest_state\": \"alpha beta gamma delta epsilon\"",
         "Cleaned output: \x7b\x7d"]) :=
  ⟨rfl, rfl, rfl, rfl, rfl, rfl⟩

/-- Witness for C7: two paragraphs, three reflections each — the run
completes and the first paragraph's reflection counter equals 3 (and is
at most 3). -/
theorem run_research_reflection_bound_witness :
    (Paragraph.mk "t1" "c1"
        (Research.mk "s" 3 [("q", 1), ("q", 1), ("q", 1)])).research.reflection_count = 3 ∧
    (Paragraph.mk "t1" "c1"
        (Research.mk "s" 3 [("q", 1), ("q", 1), ("q", 1)])).research.reflection_count ≤ 3 :=
  run_research_reflection_bound [("t1", "c1"), ("t2", "c2")]
    (fun _ => "s") (fun _ _ => ("q", 1, "s")) 3
    (RState.mk
      [Paragraph.mk "t1" "c1" (Research.mk "s" 3 [("q", 1), ("q", 1), ("q", 1)]),
       Paragraph.mk "t2" "c2" (Research.mk "s" 3 [("q", 1), ("q", 1), ("q", 1)])])
    (by rfl)
    (Paragraph.mk "t1" "c1" (Research.mk "s" 3 [("q", 1), ("q", 1), ("q", 1)]))
    (by decide)

end BettaFish
